import Mathlib

/-!
# Verification of the HMC reconciliation controllers

A shallow embedding of the reconciliation logic of the HMC repository
(`internal/controller/management_controller.go`,
`internal/controller/managedcluster_controller.go`, the template controller)
together with proofs of the testable properties of the specification.

External collaborators (the Kubernetes API reads/writes, the Helm release
engine, the chart downloader, the Sveltos profile engine) are modelled as
oracle environments: association lists describing the objects visible to the
controller and `Option String` fields describing the error outcome of each
collaborator call.  Each reconcile pass is a pure function of the object and
the environment, returning the mutated object, the reconcile result, the
error, and a trace of the externally visible actions it issued.
-/

namespace Hmc

/-- Model of `metav1.Condition`: one health axis of an object.  `status` is one of
the strings `"True"`, `"False"`, `"Unknown"`, mirroring
`metav1.ConditionStatus`. -/
structure Condition where
  type : String
  status : String
  reason : String
  message : String
deriving Repr, DecidableEq

/-- Model of `metav1.ConditionTrue`. -/
def conditionTrue : String := "True"
/-- Model of `metav1.ConditionFalse`. -/
def conditionFalse : String := "False"
/-- Model of `metav1.ConditionUnknown`. -/
def conditionUnknown : String := "Unknown"

/-- Modelled from the spec: the condition type names of §4.3 (the constants
live in the api package, absent from the provided sources; only their
distinctness matters). -/
def TemplateReadyCondition : String := "TemplateReady"
/-- Modelled from the spec: condition type for chart/artifact validity. -/
def HelmChartReadyCondition : String := "HelmChartReady"
/-- Modelled from the spec: condition type mirroring release readiness. -/
def HelmReleaseReadyCondition : String := "HelmReleaseReady"
/-- Modelled from the spec: the aggregate condition type. -/
def ReadyCondition : String := "Ready"
/-- Modelled from the spec: reason for a failed condition. -/
def FailedReason : String := "Failed"
/-- Modelled from the spec: reason for a successful condition. -/
def SucceededReason : String := "Succeeded"
/-- Modelled from the spec: reason for an in-progress aggregate. -/
def ProgressingReason : String := "Progressing"

/-- Model of `apimeta.SetStatusCondition`: replace the (first) condition of the same
type if present, otherwise append. -/
def setStatusCondition : List Condition → Condition → List Condition
  | [], c => [c]
  | x :: xs, c => if x.type = c.type then c :: xs else x :: setStatusCondition xs c

/-- Model of `controllerutil.AddFinalizer`: append if absent, report whether changed. -/
def addFinalizer (fins : List String) (f : String) : List String × Bool :=
  if fins.contains f then (fins, false) else (fins ++ [f], true)

/-- Model of `controllerutil.RemoveFinalizer`: drop every occurrence, report whether
anything was dropped. -/
def removeFinalizer (fins : List String) (f : String) : List String × Bool :=
  (fins.filter (· ≠ f), fins.contains f)

/-! ## Management (InstallationIntent) data model — `api/v1alpha1/management_types.go` -/

/-- Model of `hmc.Providers`: the three provider-capability lists. -/
structure Providers where
  infrastructureProviders : List String := []
  bootstrapProviders : List String := []
  controlPlaneProviders : List String := []
deriving Repr, DecidableEq

/-- The fragment of `hmc.TemplateStatus` the Management loop reads:
validity plus discovered provider lists (`chartRef` is carried opaquely as a
string handle passed to the release engine). -/
structure TemplateStatus where
  valid : Bool
  providers : Providers := {}
deriving Repr, DecidableEq

/-- Model of `hmc.ComponentStatus`: per-component success/error record. -/
structure ComponentStatus where
  success : Bool
  error : String
deriving Repr, DecidableEq

/-- Model of `hmc.Component`: a Management component referencing a template by name
(the raw JSON config is opaque to the properties proved here and carried as
an uninterpreted string). -/
structure Component where
  template : String
  config : Option String := none
deriving Repr, DecidableEq

/-- Model of `Component.HelmReleaseName` returns the template name. -/
def Component.helmReleaseName (c : Component) : String := c.template

/-- Model of `hmc.Core`: the two mandatory core components. -/
structure Core where
  hmc : Component
  capi : Component
deriving Repr, DecidableEq

/-- Model of `DefaultCoreHMCTemplate`. -/
def DefaultCoreHMCTemplate : String := "hmc"
/-- Model of `DefaultCoreCAPITemplate`. -/
def DefaultCoreCAPITemplate : String := "cluster-api"
/-- Model of `hmc.ManagementFinalizer`. -/
def ManagementFinalizer : String := "hmc.mirantis.com/management"

/-- Model of `DefaultCoreConfiguration`: HMC component on template `"hmc"`, CAPI
component on template `"cluster-api"`. -/
def DefaultCoreConfiguration : Core :=
  { hmc := { template := DefaultCoreHMCTemplate }
    capi := { template := DefaultCoreCAPITemplate } }

/-- Model of `hmc.ManagementSpec`. -/
structure ManagementSpec where
  core : Option Core := none
  providers : List Component := []
deriving Repr, DecidableEq

/-- Model of `ManagementSpec.SetDefaults`: populate `core` with
`DefaultCoreConfiguration` when it is nil; report whether anything changed. -/
def ManagementSpec.setDefaults (m : ManagementSpec) : ManagementSpec × Bool :=
  match m.core with
  | some _ => (m, false)
  | none => ({ m with core := some DefaultCoreConfiguration }, true)

/-- Model of `hmc.ManagementStatus`.  `components` is the Go map, modelled as an
association list with insert-or-replace semantics. -/
structure ManagementStatus where
  observedGeneration : Nat := 0
  availableProviders : Providers := {}
  components : List (String × ComponentStatus) := []
deriving Repr, DecidableEq

/-- Model of `hmc.Management`. -/
structure Management where
  name : String := "hmc"
  generation : Nat := 1
  finalizers : List String := []
  spec : ManagementSpec := {}
  status : ManagementStatus := {}
deriving Repr, DecidableEq

namespace Mgmt

/-- The per-pass `component` wrapper of `management_controller.go`: an
`hmc.Component` plus its release dependency edge and namespace override. -/
structure WComponent where
  component : Component
  dependsOn : List String := []
  targetNamespace : String := ""
  createNamespace : Bool := false
deriving Repr, DecidableEq

/-- Modelled from the spec: the well-known Sveltos provider constants
(`hmc.ProviderSveltosName` and its target-namespace overrides live in the api
package, absent from the provided sources; the spec §4.2 calls this "exactly
one well-known provider name" with "a fixed target namespace/auto-create-
namespace override"). -/
def ProviderSveltosName : String := "projectsveltos"
/-- Modelled from the spec: the Sveltos fixed target namespace. -/
def ProviderSveltosTargetNamespace : String := "projectsveltos"
/-- Modelled from the spec: the Sveltos create-namespace override. -/
def ProviderSveltosCreateNamespace : Bool := true

/-- Model of `wrappedComponents`: nothing when `core` is nil; otherwise the HMC core
component (no dependency), the CAPI core component (depends on HMC), then
every provider (depends on CAPI, with the Sveltos namespace override). -/
def wrappedComponents (mgmt : Management) : List WComponent :=
  match mgmt.spec.core with
  | none => []
  | some core =>
    [⟨core.hmc, [], "", false⟩, ⟨core.capi, [core.hmc.template], "", false⟩] ++
      mgmt.spec.providers.map (fun p =>
        if p.template = ProviderSveltosName then
          ⟨p, [core.capi.template], ProviderSveltosTargetNamespace, ProviderSveltosCreateNamespace⟩
        else ⟨p, [core.capi.template], "", false⟩)

/-- Go map insert: replace the entry with the same key, else append. -/
def mapInsert : List (String × ComponentStatus) → String → ComponentStatus →
    List (String × ComponentStatus)
  | [], k, v => [(k, v)]
  | kv :: rest, k, v => if kv.1 = k then (k, v) :: rest else kv :: mapInsert rest k v

/-- Go map lookup. -/
def mapLookup (m : List (String × ComponentStatus)) (k : String) : Option ComponentStatus :=
  (m.find? (fun kv => kv.1 = k)).map (·.2)

/-- Model of `updateComponentsStatus`: record the status of the component under its name;
on success (empty error) merge the provider lists of the template into the
aggregate (additive, no dedup). -/
def updateComponentsStatus (components : List (String × ComponentStatus))
    (providers : Providers) (componentName : String) (templateStatus : TemplateStatus)
    (err : String) : List (String × ComponentStatus) × Providers :=
  let components := mapInsert components componentName ⟨err = "", err⟩
  if err = "" then
    (components,
      { infrastructureProviders :=
          providers.infrastructureProviders ++ templateStatus.providers.infrastructureProviders
        bootstrapProviders :=
          providers.bootstrapProviders ++ templateStatus.providers.bootstrapProviders
        controlPlaneProviders :=
          providers.controlPlaneProviders ++ templateStatus.providers.controlPlaneProviders })
  else (components, providers)

/-- Environment of the Management update pass: the templates visible in the
system namespace (a missing key is the not-found get error) and the outcome
of `helm.ReconcileHelmRelease2` per release name. -/
structure Env where
  systemNamespace : String := "hmc-system"
  templates : List (String × TemplateStatus) := []
  helmError : String → Option String := fun _ => none
  statusUpdateError : Option String := none

/-- Association-list lookup (Go `r.Get` by name in the system namespace). -/
def Env.getTemplate (env : Env) (name : String) : Option TemplateStatus :=
  (env.templates.find? (fun kv => kv.1 = name)).map (·.2)

/-- One iteration of the component loop of `ManagementReconciler.Update`
(lines 102–137): fetch the template, record a failure and continue on a
missing or invalid template or a release-reconcile error, otherwise record
success and merge providers.  Returns the updated accumulators plus the
error messages appended this iteration. -/
def processComponent (env : Env)
    (acc : List (String × ComponentStatus) × Providers × List String)
    (c : WComponent) : List (String × ComponentStatus) × Providers × List String :=
  let (components, providers, errs) := acc
  match env.getTemplate c.component.template with
  | none =>
    let errMsg := "Failed to get Template " ++ env.systemNamespace ++ "/" ++
      c.component.template ++ ": not found"
    let (components, providers) :=
      updateComponentsStatus components providers c.component.template ⟨false, {}⟩ errMsg
    (components, providers, errs ++ [errMsg])
  | some ts =>
    if !ts.valid then
      let errMsg := "Template " ++ env.systemNamespace ++ "/" ++ c.component.template ++
        " is not marked as valid"
      let (components, providers) :=
        updateComponentsStatus components providers c.component.template ts errMsg
      (components, providers, errs ++ [errMsg])
    else
      match env.helmError c.component.helmReleaseName with
      | some e =>
        let errMsg := "error reconciling HelmRelease " ++ env.systemNamespace ++ "/" ++
          c.component.template ++ ": " ++ e
        let (components, providers) :=
          updateComponentsStatus components providers c.component.template ts errMsg
        (components, providers, errs ++ [errMsg])
      | none =>
        let (components, providers) :=
          updateComponentsStatus components providers c.component.template ts ""
        (components, providers, errs)

/-- The whole component loop as a fold. -/
def processComponents (env : Env) (cs : List WComponent) :
    List (String × ComponentStatus) × Providers × List String :=
  cs.foldl (processComponent env) ([], {}, [])

/-- The status the component loop records for a given component name,
determined by the template lookup, its validity, and the release-reconcile
outcome (the loop body of `Update`, factored per name). -/
def componentOutcome (env : Env) (name : String) : ComponentStatus :=
  match env.getTemplate name with
  | none =>
    ⟨false, "Failed to get Template " ++ env.systemNamespace ++ "/" ++ name ++ ": not found"⟩
  | some ts =>
    if !ts.valid then
      ⟨false, "Template " ++ env.systemNamespace ++ "/" ++ name ++ " is not marked as valid"⟩
    else
      match env.helmError name with
      | some e =>
        ⟨false, "error reconciling HelmRelease " ++ env.systemNamespace ++ "/" ++ name ++
          ": " ++ e⟩
      | none => ⟨true, ""⟩

/-- The tail of `ManagementReconciler.Update` (lines 101–150): run the
component loop over `wrappedComponents`, write the aggregated status, join a
status-write failure into the error list, and return the joined error
(`none` when no error accumulated). -/
def managementUpdatePass (env : Env) (mgmt : Management) : Management × Option (List String) :=
  let (components, providers, errs) := processComponents env (wrappedComponents mgmt)
  let mgmt := { mgmt with
    status := { observedGeneration := mgmt.generation
                availableProviders := providers
                components := components } }
  let errs := errs ++ (match env.statusUpdateError with
    | some e => ["failed to update status for Management " ++ mgmt.name ++ ": " ++ e]
    | none => [])
  (mgmt, if errs.isEmpty then none else some errs)

/-- Model of `ManagementReconciler.Update` in full (lines 73–150): add the finalizer
and return early when it was absent; apply `SetDefaults` and return early
when it changed the spec; otherwise run the component pass.
`enableAdditionalComponents` only rewrites the raw JSON
config (opaque here) or fails the pass; its failure outcome is the
`certManagerError` oracle. -/
def managementUpdate (env : Env) (certManagerError : Option String) (mgmt : Management) :
    Management × Option (List String) :=
  let (fins, finalizersUpdated) := addFinalizer mgmt.finalizers ManagementFinalizer
  if finalizersUpdated then ({ mgmt with finalizers := fins }, none)
  else
    let (spec, changed) := mgmt.spec.setDefaults
    if changed then ({ mgmt with spec := spec }, none)
    else
      match certManagerError with
      | some e => (mgmt, some ["failed to check in the cert-manager API is installed: " ++ e])
      | none => managementUpdatePass env mgmt

/-! ## Management deletion — `ManagementReconciler.Delete` (lines 153–219) -/

/-- The externally visible operations of the deletion pass, in the order the
code can issue them. -/
inductive DeleteOp where
  | suspendCore
  | deleteAllReleases
  | deleteAllCharts
  | deleteAllRepos
  | removeMgmtFinalizer
deriving Repr, DecidableEq

/-- Environment of the deletion pass: whether the core HMC HelmRelease
exists and is already suspended (`none` = not found), a non-not-found error
on its get, and the error outcome of each write. -/
structure DeleteEnv where
  coreRelease : Option Bool := none
  coreGetError : Option String := none
  suspendUpdateError : Option String := none
  deleteReleasesError : Option String := none
  deleteChartsError : Option String := none
  deleteReposError : Option String := none
  finalizerUpdateError : Option String := none
deriving Repr

/-- Model of `removeHelmReleases` (lines 176–197): abort on a non-not-found get
error; suspend the core release when it exists unsuspended (aborting on a
failed update); then delete-all HelmReleases by the managed-by label. -/
def removeHelmReleases (env : DeleteEnv) : List DeleteOp × Option String :=
  match env.coreGetError with
  | some e => ([], some e)
  | none =>
    match env.coreRelease with
    | some false =>
      match env.suspendUpdateError with
      | some e => ([DeleteOp.suspendCore], some e)
      | none =>
        match env.deleteReleasesError with
        | some e => ([DeleteOp.suspendCore, DeleteOp.deleteAllReleases], some e)
        | none => ([DeleteOp.suspendCore, DeleteOp.deleteAllReleases], none)
    | _ =>
      match env.deleteReleasesError with
      | some e => ([DeleteOp.deleteAllReleases], some e)
      | none => ([DeleteOp.deleteAllReleases], none)

/-- Model of `ManagementReconciler.Delete` (lines 153–174): releases, then charts,
then repositories, each aborting the pass on error; the Management finalizer
is removed only afterwards. -/
def managementDelete (env : DeleteEnv) (mgmt : Management) :
    List DeleteOp × Option String × Management :=
  let (ops, err) := removeHelmReleases env
  match err with
  | some e => (ops, some e, mgmt)
  | none =>
    match env.deleteChartsError with
    | some e => (ops ++ [DeleteOp.deleteAllCharts], some e, mgmt)
    | none =>
      match env.deleteReposError with
      | some e => (ops ++ [DeleteOp.deleteAllCharts, DeleteOp.deleteAllRepos], some e, mgmt)
      | none =>
        let ops := ops ++ [DeleteOp.deleteAllCharts, DeleteOp.deleteAllRepos]
        let (fins, finalizersUpdated) := removeFinalizer mgmt.finalizers ManagementFinalizer
        if finalizersUpdated then
          (ops ++ [DeleteOp.removeMgmtFinalizer], env.finalizerUpdateError,
            { mgmt with finalizers := fins })
        else (ops, none, mgmt)

end Mgmt

/-! ## ManagedCluster data model and controller —
`internal/controller/managedcluster_controller.go` (second variant, the one
with `updateServices` and `DefaultRequeueInterval`) -/

/-- Result of a `client.Get`: found, not found, or a transport error
(`apierrors.IsNotFound` distinguishes the middle case). -/
inductive GetResult (α : Type) where
  | ok (a : α)
  | notFound
  | err (msg : String)
deriving Repr, DecidableEq

/-- Model of `ManagedClusterServices`/`ServiceSpec` entry of `ManagedCluster.Spec.Services`
(registry config flattened into the two flags the controller reads). -/
structure ServiceSpec where
  template : String
  releaseName : String := ""
  releaseNamespace : String := ""
  values : String := ""
  install : Bool := false
  createNamespace : Bool := false
  plainHTTP : Bool := false
  insecure : Bool := false
deriving Repr, DecidableEq

/-- Model of `hmc.ManagedClusterSpec`: template name, opaque release values, dry-run
flag, requested services. -/
structure ManagedClusterSpec where
  template : String
  config : String := ""
  dryRun : Bool := false
  services : List ServiceSpec := []
deriving Repr, DecidableEq

/-- Model of `hmc.ManagedClusterStatus`. -/
structure ManagedClusterStatus where
  observedGeneration : Nat := 0
  conditions : List Condition := []
deriving Repr, DecidableEq

/-- Model of `hmc.ManagedCluster`. -/
structure ManagedCluster where
  name : String
  ns : String
  uid : String := ""
  generation : Nat := 1
  finalizers : List String := []
  spec : ManagedClusterSpec
  status : ManagedClusterStatus := {}
deriving Repr, DecidableEq

/-- Modelled from the spec: `hmc.ManagedClusterFinalizer` (value declared in
the api package, absent from the provided sources). -/
def ManagedClusterFinalizer : String := "hmc.mirantis.com/managed-cluster"

/-- Modelled from the spec: `hmc.BlockingFinalizer`, the dedicated finalizer
the provider release gate removes from the infra object (§4.4; value
declared in the api package, absent from the provided sources). -/
def BlockingFinalizer : String := "hmc.mirantis.com/blocking"

namespace MC

/-- Model of `apimeta.SetStatusCondition` applied to the ManagedCluster. -/
def setCond (mc : ManagedCluster) (c : Condition) : ManagedCluster :=
  { mc with status :=
      { mc.status with conditions := setStatusCondition mc.status.conditions c } }

/-- Modelled from the spec: `ManagedCluster.InitConditions` (declared in the
api package, absent from the provided sources).  §4.3 lists the conditions
persisted every pass, and the §8 dry-run example requires that no
`HelmReleaseReady` condition is ever set for a dry-run object, so the
initializer seeds `TemplateReady`, `HelmChartReady`, `HelmReleaseReady`
(the latter only when `dryRun` is unset) and `Ready` to `Unknown`. -/
def initConditions (mc : ManagedCluster) : ManagedCluster :=
  let mc := setCond mc ⟨TemplateReadyCondition, conditionUnknown, ProgressingReason, "Template is not yet ready"⟩
  let mc := setCond mc ⟨HelmChartReadyCondition, conditionUnknown, ProgressingReason, "Helm chart is not yet ready"⟩
  let mc := if mc.spec.dryRun then mc
    else setCond mc ⟨HelmReleaseReadyCondition, conditionUnknown, ProgressingReason, "Helm release is not yet ready"⟩
  setCond mc ⟨ReadyCondition, conditionUnknown, ProgressingReason, "ManagedCluster is not yet ready"⟩

/-- Model of `schema.GroupVersionKind`. -/
structure GroupVersionKind where
  group : String
  version : String
  kind : String
deriving Repr, DecidableEq

/-- Model of `gvkAWSCluster`. -/
def gvkAWSCluster : GroupVersionKind :=
  ⟨"infrastructure.cluster.x-k8s.io", "v1beta2", "awscluster"⟩
/-- Model of `gvkAzureCluster`. -/
def gvkAzureCluster : GroupVersionKind :=
  ⟨"infrastructure.cluster.x-k8s.io", "v1beta1", "azurecluster"⟩
/-- Model of `gvkMachine`. -/
def gvkMachine : GroupVersionKind :=
  ⟨"cluster.x-k8s.io", "v1beta1", "machine"⟩

/-- Model of `providerSchema`: the machine and cluster kinds of one provider. -/
structure ProviderSchema where
  machine : GroupVersionKind
  cluster : GroupVersionKind
deriving Repr, DecidableEq

/-- The static `providerGVKs` table of `releaseCluster`: only `"aws"` and
`"azure"` are present. -/
def providerGVKs (provider : String) : Option ProviderSchema :=
  if provider = "aws" then some ⟨gvkMachine, gvkAWSCluster⟩
  else if provider = "azure" then some ⟨gvkMachine, gvkAzureCluster⟩
  else none

/-- Model of `metav1.PartialObjectMetadata`: the metadata-only view of an infra or
compute object. -/
structure ObjMeta where
  name : String
  ns : String
  finalizers : List String := []
deriving Repr, DecidableEq

/-- The fragment of `hmc.ClusterTemplateStatus` this controller reads. -/
structure ClusterTemplateStatus where
  valid : Bool
  chartRef : Option (String × String) := none
  infrastructureProviders : List String := []
deriving Repr, DecidableEq

/-- The fragment of `hmc.ServiceTemplate` read by `updateServices`:
`spec.helm.chartName`/`chartVersion` and `status.chartRef`. -/
structure ServiceTemplate where
  name : String
  ns : String
  chartName : String
  chartVersion : String
  statusChartRef : Option (String × String) := none
deriving Repr, DecidableEq

/-- The fragment of `sourcev1.HelmChart` read here: its namespace and its
`spec.sourceRef.Name`. -/
structure HelmChart where
  name : String
  ns : String
  sourceRefName : String
deriving Repr, DecidableEq

/-- Model of `sveltos.HelmChartOpts`: one add-on profile entry. -/
structure HelmChartOpts where
  repositoryURL : String
  repositoryName : String
  chartName : String
  chartVersion : String
  releaseName : String
  releaseNamespace : String
  values : String := ""
  createNamespace : Bool := false
  plainHTTP : Bool := false
  insecure : Bool := false
deriving Repr, DecidableEq

/-- Model of `ctrl.Result`: requeue delay in seconds (0 = no requeue). -/
structure ReconcileResult where
  requeueAfterSeconds : Nat := 0
deriving Repr, DecidableEq

/-- The externally visible actions a ManagedCluster reconcile pass can
issue, for statements of the form "no release/profile was created". -/
inductive Action where
  | objectUpdate
  | statusUpdate
  | reconcileHelmRelease (name ns : String)
  | reconcileClusterProfile (ns name : String) (opts : List HelmChartOpts)
  | deleteClusterProfile (ns name : String)
  | deleteHelmRelease (name ns : String)
  | getTemplate (name : String)
  | listClusters (gvk : GroupVersionKind) (ns labelName : String)
  | listMachines (gvk : GroupVersionKind) (ns clusterName : String)
  | patchCluster (pre post : ObjMeta)
deriving Repr, DecidableEq

/-- Environment of a ManagedCluster update pass: every collaborator and
API-read outcome the pass can observe. -/
structure Env where
  systemNamespace : String := "hmc-system"
  /-- Model of `r.Get` of the referenced ClusterTemplate in the system namespace. -/
  clusterTemplates : String → GetResult ClusterTemplateStatus := fun _ => .notFound
  /-- Model of `r.Get` of a `sourcev1.HelmChart` keyed by (namespace, name). -/
  helmCharts : String × String → Option HelmChart := fun _ => none
  /-- Model of `helm.DownloadChartFromArtifact` outcome. -/
  downloadError : Option String := none
  /-- Model of `actionConfig.Init` outcome. -/
  actionInitError : Option String := none
  /-- Model of `validateReleaseWithValues` (client-only dry-run install) outcome. -/
  validateError : Option String := none
  /-- Model of `helm.ReconcileHelmRelease` outcome. -/
  helmReleaseError : Option String := none
  /-- Ready condition of the reconciled HelmRelease itself, if present. -/
  helmReleaseReadyCondition : Option Condition := none
  /-- Model of `fluxconditions.IsReady` on the reconciled HelmRelease. -/
  helmReleaseIsReady : Bool := false
  /-- The CAPI Cluster found by the release-name label: its status
  conditions, or not-found, or a list/parse error. -/
  capiCluster : GetResult (List Condition) := .notFound
  /-- Model of `r.Get` of a ServiceTemplate keyed by (namespace, name). -/
  serviceTemplates : String × String → Option ServiceTemplate := fun _ => none
  /-- Model of `r.Get` of a `sourcev1.HelmRepository` keyed by (namespace, name),
  returning its `spec.url`. -/
  helmRepositories : String × String → Option String := fun _ => none
  /-- Model of `sveltos.ReconcileClusterProfile` outcome. -/
  profileError : Option String := none
  /-- The deferred `r.Status().Update` outcome. -/
  statusUpdateError : Option String := none

/-- Model of `updateStatus` condition scan (lines 1115–1127): concatenate the
messages of the non-Ready Unknown conditions (warnings) and of the non-Ready
False conditions (errs), in order, each followed by `". "`. -/
def warningsErrs (conds : List Condition) : String × String :=
  conds.foldl
    (fun acc c =>
      if c.type = ReadyCondition then acc
      else
        (if c.status = conditionUnknown then acc.1 ++ c.message ++ ". " else acc.1,
         if c.status = conditionFalse then acc.2 ++ c.message ++ ". " else acc.2))
    ("", "")

/-- The aggregate Ready condition computed by `updateStatus` (lines
1128–1143): True by default, overridden to Unknown when any warning was
collected, overridden to False when any error was collected. -/
def readyConditionFor (conds : List Condition) : Condition :=
  let we := warningsErrs conds
  if we.2 ≠ "" then ⟨ReadyCondition, conditionFalse, FailedReason, we.2⟩
  else if we.1 ≠ "" then
    ⟨ReadyCondition, conditionUnknown, ProgressingReason, we.1⟩
  else ⟨ReadyCondition, conditionTrue, SucceededReason, "ManagedCluster is ready"⟩

/-- Model of `ManagedClusterReconciler.updateStatus` (lines 1113–1149): refresh the
observed generation, set the aggregate Ready condition computed from all
other conditions, and write the status (its write error, if any, is
returned). -/
def updateStatus (env : Env) (mc : ManagedCluster) : ManagedCluster × List String :=
  let mc := { mc with status := { mc.status with observedGeneration := mc.generation } }
  let mc := setCond mc (readyConditionFor mc.status.conditions)
  (mc,
    match env.statusUpdateError with
    | some e =>
      ["failed to update status for managedCluster " ++ mc.ns ++ "/" ++ mc.name ++ ": " ++ e]
    | none => [])

/-- Model of `setStatusFromClusterStatus` (lines 783–838): copy the CAPI Cluster
conditions in (defaulting an empty reason to `"Succeeded"` when the status
is True); not-found is a non-error requeue signal; the requeue flag is set
unless every copied condition is True. -/
def setStatusFromClusterStatus (env : Env) (mc : ManagedCluster) :
    ManagedCluster × Bool × List String :=
  match env.capiCluster with
  | .notFound => (mc, true, [])
  | .err e => (mc, true, [e])
  | .ok conds =>
    let mc := conds.foldl
      (fun m c =>
        let c := if c.reason = "" ∧ c.status = conditionTrue then
            { c with reason := "Succeeded" } else c
        setCond m c) mc
    (mc, !(conds.all (fun c => c.status = conditionTrue)), [])

/-- Model of `getServiceTemplateRepoURL` (lines 1067–1093): the three-hop lookup
service template → chart (by the chartRef namespace and the spec chart
name) → repository (by the chart namespace and sourceRef name) ending at
the repository URL. -/
def getServiceTemplateRepoURL (env : Env) (tmpl : ServiceTemplate) : Except String String :=
  match tmpl.statusChartRef with
  | none => .error ("status for ServiceTemplate (" ++ tmpl.ns ++ "/" ++ tmpl.name ++
      ") has not been updated yet")
  | some chartRef =>
    match env.helmCharts (chartRef.1, tmpl.chartName) with
    | none => .error ("failed to get HelmChart (" ++ tmpl.ns ++ "/" ++ tmpl.name ++ ")")
    | some chart =>
      match env.helmRepositories (chart.ns, chart.sourceRefName) with
      | none => .error ("failed to get HelmRepository (" ++ tmpl.ns ++ "/" ++ tmpl.name ++ ")")
      | some url => .ok url

/-- The service loop of `updateServices` (lines 1001–1035): skip
`install=false` entries; resolve the template of each installed service and
repository URL, aborting the whole pass on the first failure; build one
profile entry per installed service (release namespace defaulting to the
release name). -/
def buildServiceOpts (env : Env) (ns : String) :
    List ServiceSpec → Except String (List HelmChartOpts)
  | [] => .ok []
  | svc :: rest =>
    if !svc.install then buildServiceOpts env ns rest
    else
      match env.serviceTemplates (ns, svc.template) with
      | none => .error ("failed to get Template (" ++ ns ++ "/" ++ svc.template ++ ")")
      | some tmpl =>
        match getServiceTemplateRepoURL env tmpl with
        | .error e => .error ("could not get repository url: " ++ e)
        | .ok url =>
          match buildServiceOpts env ns rest with
          | .error e => .error e
          | .ok opts =>
            .ok ({ repositoryURL := url
                   repositoryName := tmpl.chartName
                   chartName := tmpl.chartName
                   chartVersion := tmpl.chartVersion
                   releaseName := svc.releaseName
                   releaseNamespace :=
                     if svc.releaseNamespace ≠ "" then svc.releaseNamespace
                     else svc.releaseName
                   values := svc.values
                   createNamespace := svc.createNamespace
                   plainHTTP := svc.plainHTTP
                   insecure := svc.insecure } :: opts)

/-- Model of `updateServices` (lines 994–1063): build the profile entries (aborting
on the first resolution failure, before touching the ClusterProfile), then
reconcile the ClusterProfile and requeue. -/
def updateServices (env : Env) (mc : ManagedCluster) :
    ReconcileResult × List String × List Action :=
  match buildServiceOpts env mc.ns mc.spec.services with
  | .error e => ({}, [e], [])
  | .ok opts =>
    match env.profileError with
    | some e =>
      ({}, ["failed to create ClusterProfile: " ++ e],
        [Action.reconcileClusterProfile mc.ns mc.name opts])
    | none =>
      ({ requeueAfterSeconds := 10 }, [], [Action.reconcileClusterProfile mc.ns mc.name opts])

/-- The body of `ManagedClusterReconciler.Update` after the finalizer and
`InitConditions` steps (lines 857–989), i.e. the part covered by the
deferred `updateStatus`. -/
def updateBody (env : Env) (mc : ManagedCluster) :
    ManagedCluster × ReconcileResult × List String × List Action :=
  match env.clusterTemplates mc.spec.template with
  | .notFound =>
    (setCond mc ⟨TemplateReadyCondition, conditionFalse, FailedReason,
        "provided template is not found"⟩,
      {}, ["provided template is not found"], [])
  | .err e =>
    (setCond mc ⟨TemplateReadyCondition, conditionFalse, FailedReason,
        "failed to get provided template: " ++ e⟩,
      {}, [e], [])
  | .ok template =>
    if !template.valid then
      (setCond mc ⟨TemplateReadyCondition, conditionFalse, FailedReason,
          "provided template is not marked as valid"⟩,
        {}, ["provided template is not marked as valid"], [])
    else
      let mc := setCond mc ⟨TemplateReadyCondition, conditionTrue, SucceededReason,
        "Template is valid"⟩
      match template.chartRef with
      | none =>
        (setCond mc ⟨HelmChartReadyCondition, conditionFalse, FailedReason,
            "failed to get helm chart source: helm chart source is not provided"⟩,
          {}, ["helm chart source is not provided"], [])
      | some chartRef =>
        match env.helmCharts chartRef with
        | none =>
          (setCond mc ⟨HelmChartReadyCondition, conditionFalse, FailedReason,
              "failed to get helm chart source: not found"⟩,
            {}, ["failed to get helm chart source"], [])
        | some _ =>
          match env.downloadError with
          | some e =>
            (setCond mc ⟨HelmChartReadyCondition, conditionFalse, FailedReason,
                "failed to download helm chart: " ++ e⟩,
              {}, [e], [])
          | none =>
            match env.actionInitError with
            | some e => (mc, {}, [e], [])
            | none =>
              match env.validateError with
              | some e =>
                (setCond mc ⟨HelmChartReadyCondition, conditionFalse, FailedReason,
                    "failed to validate template with provided configuration: " ++ e⟩,
                  {}, [e], [])
              | none =>
                let mc := setCond mc ⟨HelmChartReadyCondition, conditionTrue,
                  SucceededReason, "Helm chart is valid"⟩
                if mc.spec.dryRun then (mc, {}, [], [])
                else
                  let trace := [Action.reconcileHelmRelease mc.name mc.ns]
                  match env.helmReleaseError with
                  | some e =>
                    (setCond mc ⟨HelmReleaseReadyCondition, conditionFalse, FailedReason, e⟩,
                      {}, [e], trace)
                  | none =>
                    let mc := match env.helmReleaseReadyCondition with
                      | some c => setCond mc ⟨HelmReleaseReadyCondition, c.status, c.reason,
                          c.message⟩
                      | none => mc
                    let (mc, requeue, cerr) := setStatusFromClusterStatus env mc
                    if !cerr.isEmpty then
                      if requeue then (mc, { requeueAfterSeconds := 10 }, cerr, trace)
                      else (mc, {}, cerr, trace)
                    else if requeue then (mc, { requeueAfterSeconds := 10 }, [], trace)
                    else if !env.helmReleaseIsReady then
                      (mc, { requeueAfterSeconds := 10 }, [], trace)
                    else
                      let (res, errs, strace) := updateServices env mc
                      (mc, res, errs, trace ++ strace)

/-- The `InitConditions` guard of `Update` (lines 849–851): initialize the
condition set when it is empty. -/
def updateInit (mc : ManagedCluster) : ManagedCluster :=
  if mc.status.conditions.isEmpty then initConditions mc else mc

/-- Model of `ManagedClusterReconciler.Update` (lines 840–990): add the finalizer and
return early when it was absent; initialize the conditions when empty; run
the body; the deferred `updateStatus` runs on every body exit path, its
error joined into the returned error. -/
def update (env : Env) (mc : ManagedCluster) :
    ManagedCluster × ReconcileResult × List String × List Action :=
  let (fins, finalizersUpdated) := addFinalizer mc.finalizers ManagedClusterFinalizer
  if finalizersUpdated then
    ({ mc with finalizers := fins }, {}, [], [Action.objectUpdate])
  else
    let mc := updateInit mc
    let (mc, res, errs, trace) := updateBody env mc
    let (mc, serrs) := updateStatus env mc
    (mc, res, errs ++ serrs, trace ++ [Action.statusUpdate])

/-- Plain concatenation of a message list (for stating what the
`updateStatus` string accumulation amounts to). -/
def concatMsgs : List String → String
  | [] => ""
  | s :: rest => s ++ concatMsgs rest

/-- The messages of the non-Ready Unknown conditions, each suffixed with
`". "` the way `updateStatus` appends them. -/
def unknownMsgs (conds : List Condition) : List String :=
  (conds.filter (fun c => c.type ≠ ReadyCondition ∧ c.status = conditionUnknown)).map
    (fun c => c.message ++ ". ")

/-- The messages of the non-Ready False conditions, each suffixed with
`". "` the way `updateStatus` appends them. -/
def falseMsgs (conds : List Condition) : List String :=
  (conds.filter (fun c => c.type ≠ ReadyCondition ∧ c.status = conditionFalse)).map
    (fun c => c.message ++ ". ")

/-- Whether `updateServices` fails to resolve the given service: either the
ServiceTemplate get fails or the three-hop repository-URL lookup does. -/
def serviceResolutionFails (env : Env) (ns : String) (svc : ServiceSpec) : Bool :=
  match env.serviceTemplates (ns, svc.template) with
  | none => true
  | some tmpl =>
    match getServiceTemplateRepoURL env tmpl with
    | .error _ => true
    | .ok _ => false

/-! ### Deletion and the provider release gate (lines 1163–1292) -/

/-- Environment of a ManagedCluster deletion pass. -/
structure DelEnv where
  systemNamespace : String := "hmc-system"
  /-- Model of `r.Get` of the primary HelmRelease. -/
  helmRelease : GetResult Unit := .notFound
  /-- Model of `sveltos.DeleteClusterProfile` outcome. -/
  deleteProfileError : Option String := none
  /-- Model of `helm.DeleteHelmRelease` outcome. -/
  deleteReleaseError : Option String := none
  /-- Model of `r.Get` of the referenced ClusterTemplate (for `getProviders`). -/
  clusterTemplates : String → GetResult ClusterTemplateStatus := fun _ => .notFound
  /-- Model of `r.Client.List` of infra cluster objects keyed by (gvk, namespace,
  release-name label value). -/
  clusters : GroupVersionKind → String → String → Except String (List ObjMeta) :=
    fun _ _ _ => .ok []
  /-- The number of compute (machine) objects carrying the cluster-name
  label, keyed by (gvk, namespace, cluster name); `.error` is a list
  failure. -/
  machineCount : GroupVersionKind → String → String → Except String Nat :=
    fun _ _ _ => .ok 0
  /-- Model of `r.Client.Patch` outcome of the finalizer-removal patch. -/
  patchError : Option String := none
  /-- Model of `r.Client.Update` outcome of the ManagedCluster finalizer removal. -/
  mcUpdateError : Option String := none

/-- Model of `machinesAvailable` (lines 1280–1292): list compute objects with the
cluster-name label (limit 1) and report whether any exist. -/
def machinesAvailable (env : DelEnv) (gvk : GroupVersionKind) (ns clusterName : String) :
    Except String Bool :=
  match env.machineCount gvk ns clusterName with
  | .error e => .error e
  | .ok n => .ok (n ≠ 0)

/-- Model of `removeClusterFinalizer` (lines 1267–1278): drop the blocking finalizer
from a copy and, when that changed anything, patch the object against the
pre-patch copy. -/
def removeClusterFinalizer (env : DelEnv) (cluster : ObjMeta) :
    Except String Unit × List Action :=
  let (fins, finalizersUpdated) := removeFinalizer cluster.finalizers BlockingFinalizer
  if finalizersUpdated then
    let post := { cluster with finalizers := fins }
    match env.patchError with
    | some e =>
      (.error ("failed to patch cluster " ++ cluster.ns ++ "/" ++ cluster.name ++ ": " ++ e),
        [Action.patchCluster cluster post])
    | none => (.ok (), [Action.patchCluster cluster post])
  else (.ok (), [])

/-- The provider loop of `releaseCluster` (lines 1216–1235): skip providers
absent from the static table; for a table provider, find the infra cluster
by the release-name label (first item; empty list is an error), check for
compute objects, and when none exist remove the blocking finalizer and stop;
when some exist continue with the next provider. -/
def releaseClusterLoop (env : DelEnv) (ns name : String) :
    List String → Except String Unit × List Action
  | [] => (.ok (), [])
  | provider :: rest =>
    match providerGVKs provider with
    | none => releaseClusterLoop env ns name rest
    | some gvk =>
      let acts := [Action.listClusters gvk.cluster ns name]
      match env.clusters gvk.cluster ns name with
      | .error e => (.error e, acts)
      | .ok [] => (.error (gvk.cluster.kind ++ " with name " ++ name ++ " was not found"), acts)
      | .ok (cluster :: _) =>
        let acts := acts ++ [Action.listMachines gvk.machine ns cluster.name]
        match machinesAvailable env gvk.machine ns cluster.name with
        | .error e => (.error e, acts)
        | .ok found =>
          if !found then
            let (r, pacts) := removeClusterFinalizer env cluster
            (r, acts ++ pacts)
          else
            let (r, racts) := releaseClusterLoop env ns name rest
            (r, acts ++ racts)

/-- Model of `releaseCluster` (lines 1204–1238): read the discovered
infrastructure providers (`getProviders`, lines 1240–1248) and run the
provider loop. -/
def releaseCluster (env : DelEnv) (ns name templateName : String) :
    Except String Unit × List Action :=
  match env.clusterTemplates templateName with
  | .notFound => (.error "template not found", [Action.getTemplate templateName])
  | .err e => (.error e, [Action.getTemplate templateName])
  | .ok template =>
    let (r, acts) := releaseClusterLoop env ns name template.infrastructureProviders
    (r, Action.getTemplate templateName :: acts)

/-- Model of `ManagedClusterReconciler.Delete` (lines 1163–1202): once the primary
HelmRelease is gone remove the ManagedCluster finalizer; otherwise delete
the ClusterProfile, delete the HelmRelease, run the provider release gate,
and requeue after the fixed interval. -/
def del (env : DelEnv) (mc : ManagedCluster) :
    ManagedCluster × ReconcileResult × List String × List Action :=
  match env.helmRelease with
  | .notFound =>
    let (fins, finalizersUpdated) := removeFinalizer mc.finalizers ManagedClusterFinalizer
    if finalizersUpdated then
      match env.mcUpdateError with
      | some e =>
        (mc, {}, ["failed to update managedCluster " ++ mc.ns ++ "/" ++ mc.name ++ ": " ++ e],
          [Action.objectUpdate])
      | none => ({ mc with finalizers := fins }, {}, [], [Action.objectUpdate])
    else (mc, {}, [], [])
  | .err e => (mc, {}, [e], [])
  | .ok _ =>
    let trace := [Action.deleteClusterProfile mc.ns mc.name]
    match env.deleteProfileError with
    | some e => (mc, {}, [e], trace)
    | none =>
      let trace := trace ++ [Action.deleteHelmRelease mc.name mc.ns]
      match env.deleteReleaseError with
      | some e => (mc, {}, [e], trace)
      | none =>
        let (r, racts) := releaseCluster env mc.ns mc.name mc.spec.template
        match r with
        | .error e => (mc, {}, [e], trace ++ racts)
        | .ok () => (mc, { requeueAfterSeconds := 10 }, [], trace ++ racts)

end MC

/-! ## Template validation — the `hmc.Template` reconciler variant
(`src/unnamed/part_001`), whose `parseChartMetadata` enforces the template
type. -/

namespace Tmpl

/-- Modelled from the spec: the three recognized template kinds
(`hmc.TemplateTypeDeployment`/`Provider`/`Core`; the constants live in the
api package, absent from the provided sources, and §4.4 of the spec names
the kinds deployment, provider, core). -/
def TemplateTypeDeployment : String := "deployment"
/-- Modelled from the spec: the provider template kind. -/
def TemplateTypeProvider : String := "provider"
/-- Modelled from the spec: the core template kind. -/
def TemplateTypeCore : String := "core"
/-- Modelled from the spec: `hmc.ChartAnnotationType`, the chart annotation
key carrying the template kind (value absent from the provided sources). -/
def ChartAnnotationType : String := "hmc.mirantis.com/type"
/-- Modelled from the spec: annotation key for infrastructure providers. -/
def ChartAnnotationInfraProviders : String := "hmc.mirantis.com/infrastructure-providers"
/-- Modelled from the spec: annotation key for bootstrap providers. -/
def ChartAnnotationBootstrapProviders : String := "hmc.mirantis.com/bootstrap-providers"
/-- Modelled from the spec: annotation key for control-plane providers. -/
def ChartAnnotationControlPlaneProviders : String := "hmc.mirantis.com/control-plane-providers"

/-- Model of `errNoProviderType` (src/unnamed/part_001 lines 44–47): the fixed
rejection message naming the three recognized kinds. -/
def errNoProviderType : String :=
  "template type is not supported: " ++ ChartAnnotationType ++
    " chart annotation must be one of [" ++ TemplateTypeDeployment ++ "/" ++
    TemplateTypeProvider ++ "/" ++ TemplateTypeCore ++ "]"

/-- Model of `chart.Metadata`: description and annotations (a Go map; a missing key
reads as the empty string). -/
structure ChartMetadata where
  description : String := ""
  annotations : List (String × String) := []
deriving Repr, DecidableEq

/-- Go map read with the zero-value default. -/
def annotationValue (md : ChartMetadata) (key : String) : String :=
  ((md.annotations.find? (fun kv => kv.1 = key)).map (·.2)).getD ""

/-- Model of `chart.Chart`: possibly-nil metadata plus opaque serialized default
values. -/
structure Chart where
  metadata : Option ChartMetadata := none
  values : String := ""
deriving Repr, DecidableEq

/-- The fragment of `hmc.TemplateSpec` the validator reads: the declared
type and the provider-list overrides. -/
structure TemplateSpec where
  type : String := ""
  providers : Providers := {}
deriving Repr, DecidableEq

/-- The status fields written by the validator. -/
structure TemplateStatusFull where
  type : String := ""
  providers : Providers := {}
  description : String := ""
  config : Option String := none
  valid : Bool := false
  validationError : String := ""
  observedGeneration : Nat := 0
deriving Repr, DecidableEq

/-- The `hmc.Template` object (the fields the validator touches). -/
structure Template where
  name : String
  ns : String
  generation : Nat := 1
  spec : TemplateSpec := {}
  status : TemplateStatusFull := {}
deriving Repr, DecidableEq

/-- One spec-or-annotation provider list merge (spec wins; an empty
annotation contributes nothing). -/
def mergeProviders (specList : List String) (anno : String) (current : List String) :
    List String :=
  if specList.length > 0 then specList
  else if anno ≠ "" then anno.splitOn "," else current

/-- The provider-list portion of `parseChartMetadata` (src/unnamed/part_001
lines 166–189): spec overrides win, else comma-split annotations. -/
def parseProviders (t : Template) (md : ChartMetadata) : Template :=
  { t with status := { t.status with providers :=
      { infrastructureProviders :=
          mergeProviders t.spec.providers.infrastructureProviders
            (annotationValue md ChartAnnotationInfraProviders)
            t.status.providers.infrastructureProviders
        bootstrapProviders :=
          mergeProviders t.spec.providers.bootstrapProviders
            (annotationValue md ChartAnnotationBootstrapProviders)
            t.status.providers.bootstrapProviders
        controlPlaneProviders :=
          mergeProviders t.spec.providers.controlPlaneProviders
            (annotationValue md ChartAnnotationControlPlaneProviders)
            t.status.providers.controlPlaneProviders } } }

/-- Model of `parseChartMetadata` (src/unnamed/part_001 lines 149–191): empty
metadata is an error; the spec type wins, otherwise the chart annotation
must name one of the three recognized kinds or the fixed
`errNoProviderType` error is returned; then the provider lists are derived. -/
def parseChartMetadata (t : Template) (c : Chart) : Except String Template :=
  match c.metadata with
  | none => .error "chart metadata is empty"
  | some md =>
    let templateType := t.spec.type
    if templateType = "" then
      let templateType := annotationValue md ChartAnnotationType
      if templateType = TemplateTypeDeployment ∨ templateType = TemplateTypeProvider ∨
          templateType = TemplateTypeCore then
        .ok (parseProviders { t with status := { t.status with type := templateType } } md)
      else .error errNoProviderType
    else .ok (parseProviders { t with status := { t.status with type := templateType } } md)

/-- Model of `TemplateReconciler.updateStatus` (src/unnamed/part_001 lines 193–201):
persist the observed generation and the validation error; `valid` is true
exactly when the error string is empty. -/
def templateUpdateStatus (t : Template) (validationError : String) : Template :=
  { t with status := { t.status with
      observedGeneration := t.generation
      validationError := validationError
      valid := validationError = "" } }

/-- The validation tail of `TemplateReconciler.Reconcile`
(src/unnamed/part_001 lines 123–147): parse the chart metadata, run the
structural validation of the chart (outcome is the `chartValidateError` oracle),
then record description and serialized default values; every failure is
persisted through `updateStatus` and returned. -/
def reconcileValidationStep (t : Template) (c : Chart) (chartValidateError : Option String) :
    Template × Option String :=
  match parseChartMetadata t c with
  | .error e => (templateUpdateStatus t e, some e)
  | .ok t =>
    match chartValidateError with
    | some e => (templateUpdateStatus t e, some e)
    | none =>
      let t := { t with status := { t.status with
          description := (c.metadata.map (·.description)).getD ""
          config := some c.values } }
      (templateUpdateStatus t "", none)

end Tmpl

/-! ## Lemma toolbox -/

theorem append_ne_empty_left {s : String} (t : String) (h : s ≠ "") : s ++ t ≠ "" := by
  intro he
  apply h
  have h2 := congrArg String.data he
  simp at h2
  exact String.ext h2.1

theorem append_ne_empty_right (s : String) {t : String} (h : t ≠ "") : s ++ t ≠ "" := by
  intro he
  apply h
  have h2 := congrArg String.data he
  simp at h2
  exact String.ext h2.2

theorem setStatusCondition_find_self (conds : List Condition) (c : Condition) {ty : String}
    (h : c.type = ty) :
    (setStatusCondition conds c).find? (fun x => x.type = ty) = some c := by
  induction conds with
  | nil => simp [setStatusCondition, h]
  | cons x xs ih =>
    by_cases hx : x.type = c.type
    · simp [setStatusCondition, hx, h]
    · have hxty : ¬ x.type = ty := fun hc => hx (hc.trans h.symm)
      simp [setStatusCondition, hx, hxty, ih]

theorem setStatusCondition_find_other (conds : List Condition) {c : Condition} {ty : String}
    (h : c.type ≠ ty) :
    (setStatusCondition conds c).find? (fun x => x.type = ty) =
      conds.find? (fun x => x.type = ty) := by
  induction conds with
  | nil => simp [setStatusCondition, h]
  | cons x xs ih =>
    by_cases hx : x.type = c.type
    · have hxty : ¬ x.type = ty := fun hc => h (hx ▸ hc)
      simp [setStatusCondition, hx, hxty, h]
    · by_cases hty : x.type = ty
      · simp only [setStatusCondition, if_neg hx]
        rw [List.find?_cons_of_pos _ (by simp [hty]), List.find?_cons_of_pos _ (by simp [hty])]
      · simp only [setStatusCondition, if_neg hx]
        rw [List.find?_cons_of_neg _ (by simp [hty]), List.find?_cons_of_neg _ (by simp [hty]),
          ih]

theorem setStatusCondition_mem (conds : List Condition) (c x : Condition)
    (hx : x ∈ setStatusCondition conds c) : x = c ∨ x ∈ conds := by
  induction conds with
  | nil => simpa [setStatusCondition] using hx
  | cons y ys ih =>
    by_cases hy : y.type = c.type
    · simp only [setStatusCondition, hy, if_pos rfl] at hx
      rcases List.mem_cons.mp hx with h | h
      · exact Or.inl h
      · exact Or.inr (List.mem_cons_of_mem _ h)
    · simp only [setStatusCondition, if_neg hy] at hx
      rcases List.mem_cons.mp hx with h | h
      · exact Or.inr (h ▸ List.mem_cons_self _ _)
      · rcases ih h with h' | h'
        · exact Or.inl h'
        · exact Or.inr (List.mem_cons_of_mem _ h')

theorem setStatusCondition_no_type (conds : List Condition) (c : Condition) (ty : String)
    (hc : c.type ≠ ty) (hconds : ∀ x ∈ conds, x.type ≠ ty) :
    ∀ x ∈ setStatusCondition conds c, x.type ≠ ty := by
  intro x hx
  rcases setStatusCondition_mem conds c x hx with h | h
  · exact h ▸ hc
  · exact hconds x h

namespace Mgmt

theorem mapLookup_mapInsert_self (m : List (String × ComponentStatus)) (k : String)
    (v : ComponentStatus) : mapLookup (mapInsert m k v) k = some v := by
  induction m with
  | nil => simp [mapInsert, mapLookup]
  | cons kv rest ih =>
    by_cases h : kv.1 = k
    · simp [mapInsert, mapLookup, h]
    · simp only [mapInsert, if_neg h]
      simp only [mapLookup] at ih ⊢
      rw [List.find?_cons_of_neg _ (by simp [h])]
      exact ih

theorem mapLookup_mapInsert_other (m : List (String × ComponentStatus)) (k : String)
    (v : ComponentStatus) (k' : String) (h : k ≠ k') :
    mapLookup (mapInsert m k v) k' = mapLookup m k' := by
  induction m with
  | nil => simp [mapInsert, mapLookup, h]
  | cons kv rest ih =>
    by_cases hk : kv.1 = k
    · simp only [mapInsert, if_pos hk, mapLookup]
      rw [List.find?_cons_of_neg _ (by simp [h]), List.find?_cons_of_neg _ (by simp [hk ▸ h])]
    · simp only [mapInsert, if_neg hk, mapLookup] at ih ⊢
      by_cases hk' : kv.1 = k'
      · rw [List.find?_cons_of_pos _ (by simp [hk']), List.find?_cons_of_pos _ (by simp [hk'])]
      · rw [List.find?_cons_of_neg _ (by simp [hk']), List.find?_cons_of_neg _ (by simp [hk'])]
        exact ih

theorem mapLookup_mapInsert_isSome (m : List (String × ComponentStatus)) (k : String)
    (v : ComponentStatus) (k' : String) (h : (mapLookup m k').isSome) :
    (mapLookup (mapInsert m k v) k').isSome := by
  by_cases hk : k = k'
  · rw [hk, mapLookup_mapInsert_self]; rfl
  · rwa [mapLookup_mapInsert_other _ _ _ _ hk]

theorem updateComponentsStatus_fst (comps : List (String × ComponentStatus))
    (prov : Providers) (n : String) (ts : TemplateStatus) (err : String) :
    (updateComponentsStatus comps prov n ts err).1 = mapInsert comps n ⟨err = "", err⟩ := by
  unfold updateComponentsStatus
  by_cases h : err = "" <;> simp [h]

theorem processComponent_fst (env : Env)
    (acc : List (String × ComponentStatus) × Providers × List String) (c : WComponent) :
    (processComponent env acc c).1
      = mapInsert acc.1 c.component.template (componentOutcome env c.component.template) := by
  obtain ⟨m, pr, es⟩ := acc
  cases hg : env.getTemplate c.component.template with
  | none =>
    have hne : decide (("Failed to get Template " ++ env.systemNamespace ++ "/" ++
        c.component.template ++ ": not found") = "") = false :=
      decide_eq_false (append_ne_empty_right _ (by decide))
    simp only [processComponent, hg, updateComponentsStatus_fst, componentOutcome, hne]
  | some ts =>
    cases hv : ts.valid with
    | false =>
      have hne : decide (("Template " ++ env.systemNamespace ++ "/" ++
          c.component.template ++ " is not marked as valid") = "") = false :=
        decide_eq_false (append_ne_empty_right _ (by decide))
      simp only [processComponent, hg, hv, updateComponentsStatus_fst, componentOutcome, hne,
        Bool.not_false, if_true]
    | true =>
      cases hh : env.helmError c.component.template with
      | some e =>
        have hne : decide (("error reconciling HelmRelease " ++ env.systemNamespace ++ "/" ++
            c.component.template ++ ": " ++ e) = "") = false :=
          decide_eq_false (append_ne_empty_left _ (append_ne_empty_right _ (by decide)))
        simp only [processComponent, hg, hv, Component.helmReleaseName, hh,
          updateComponentsStatus_fst, componentOutcome, hne, Bool.not_true, if_false,
          Bool.false_eq_true]
      | none =>
        simp only [processComponent, hg, hv, Component.helmReleaseName, hh,
          updateComponentsStatus_fst, componentOutcome, Bool.not_true, if_false,
          Bool.false_eq_true]
        simp

theorem processComponent_errs (env : Env)
    (acc : List (String × ComponentStatus) × Providers × List String) (c : WComponent) :
    (processComponent env acc c).2.2
      = acc.2.2 ++ (if (componentOutcome env c.component.template).success = true then []
                    else [(componentOutcome env c.component.template).error]) := by
  obtain ⟨m, pr, es⟩ := acc
  cases hg : env.getTemplate c.component.template with
  | none =>
    simp only [processComponent, hg, componentOutcome]
    simp
  | some ts =>
    cases hv : ts.valid with
    | false =>
      simp only [processComponent, hg, hv, componentOutcome, Bool.not_false, if_true]
      simp
    | true =>
      cases hh : env.helmError c.component.template with
      | some e =>
        have hne : decide (("error reconciling HelmRelease " ++ env.systemNamespace ++ "/" ++
            c.component.template ++ ": " ++ e) = "") = false :=
          decide_eq_false (append_ne_empty_left _ (append_ne_empty_right _ (by decide)))
        simp only [processComponent, hg, hv, Component.helmReleaseName, hh, componentOutcome,
          hne, Bool.not_true, if_false, Bool.false_eq_true]
        try simp
      | none =>
        simp only [processComponent, hg, hv, Component.helmReleaseName, hh, componentOutcome,
          Bool.not_true, if_false, Bool.false_eq_true]
        try simp

theorem processComponents_fold_lookup_some (env : Env) (cs : List WComponent) :
    ∀ acc (k : String), (mapLookup acc.1 k).isSome →
      (mapLookup (cs.foldl (processComponent env) acc).1 k).isSome := by
  induction cs with
  | nil => intro acc k h; simpa using h
  | cons c rest ih =>
    intro acc k h
    simp only [List.foldl]
    apply ih
    rw [processComponent_fst]
    exact mapLookup_mapInsert_isSome _ _ _ _ h

theorem processComponents_fold_mem_lookup (env : Env) (cs : List WComponent) (c : WComponent)
    (hc : c ∈ cs) :
    ∀ acc, (mapLookup (cs.foldl (processComponent env) acc).1 c.component.template).isSome := by
  induction cs with
  | nil => cases hc
  | cons d rest ih =>
    intro acc
    simp only [List.foldl]
    rcases List.mem_cons.mp hc with rfl | h
    · apply processComponents_fold_lookup_some
      rw [processComponent_fst, mapLookup_mapInsert_self]
      rfl
    · exact ih h _

theorem processComponents_fold_values (env : Env) (cs : List WComponent) :
    ∀ acc, (∀ k v, mapLookup acc.1 k = some v → v = componentOutcome env k) →
      ∀ k v, mapLookup (cs.foldl (processComponent env) acc).1 k = some v →
        v = componentOutcome env k := by
  induction cs with
  | nil => intro acc h; simpa using h
  | cons c rest ih =>
    intro acc h
    simp only [List.foldl]
    apply ih
    intro k v hv
    rw [processComponent_fst] at hv
    by_cases hk : c.component.template = k
    · subst hk
      rw [mapLookup_mapInsert_self] at hv
      exact (Option.some.inj hv).symm
    · rw [mapLookup_mapInsert_other _ _ _ _ hk] at hv
      exact h k v hv

theorem processComponents_fold_errs_grow (env : Env) (cs : List WComponent) :
    ∀ acc, ∃ l, (cs.foldl (processComponent env) acc).2.2 = acc.2.2 ++ l := by
  induction cs with
  | nil => intro acc; exact ⟨[], by simp⟩
  | cons c rest ih =>
    intro acc
    simp only [List.foldl]
    obtain ⟨l, hl⟩ := ih (processComponent env acc c)
    rw [hl, processComponent_errs]
    exact ⟨_, by rw [List.append_assoc]⟩

theorem processComponents_fold_err_mem (env : Env) (cs : List WComponent) (c : WComponent)
    (hc : c ∈ cs) (hf : (componentOutcome env c.component.template).success = false) :
    ∀ acc, (componentOutcome env c.component.template).error
      ∈ (cs.foldl (processComponent env) acc).2.2 := by
  induction cs with
  | nil => cases hc
  | cons d rest ih =>
    intro acc
    simp only [List.foldl]
    rcases List.mem_cons.mp hc with rfl | h
    · obtain ⟨l, hl⟩ :=
        processComponents_fold_errs_grow env rest (processComponent env acc c)
      rw [hl, processComponent_errs, hf]
      simp
    · exact ih h _

theorem componentOutcome_fail (env : Env) (name : String)
    (h : env.getTemplate name = none
      ∨ ∃ ts, env.getTemplate name = some ts ∧ ts.valid = false) :
    (componentOutcome env name).success = false ∧ (componentOutcome env name).error ≠ "" := by
  unfold componentOutcome
  rcases h with h | ⟨ts, h, hv⟩
  · rw [h]
    exact ⟨rfl, append_ne_empty_right _ (by decide)⟩
  · rw [h]
    simp only [hv, Bool.not_false, if_true]
    exact ⟨by simp, append_ne_empty_right _ (by decide)⟩

theorem managementUpdatePass_components (env : Env) (mgmt : Management) :
    (managementUpdatePass env mgmt).1.status.components
      = (processComponents env (wrappedComponents mgmt)).1 := by
  rcases hp : processComponents env (wrappedComponents mgmt) with ⟨comps, prov, errs⟩
  unfold managementUpdatePass
  rw [hp]

theorem managementUpdatePass_err_mem (env : Env) (mgmt : Management) (e : String)
    (he : e ∈ (processComponents env (wrappedComponents mgmt)).2.2) :
    ∃ l, (managementUpdatePass env mgmt).2 = some l ∧ e ∈ l := by
  rcases hp : processComponents env (wrappedComponents mgmt) with ⟨comps, prov, errs⟩
  rw [hp] at he
  unfold managementUpdatePass
  rw [hp]
  simp only []
  have hne : ¬ ((errs ++ (match env.statusUpdateError with
      | some e2 => ["failed to update status for Management " ++ mgmt.name ++ ": " ++ e2]
      | none => [])).isEmpty = true) := by
    simp only [List.isEmpty_iff, List.append_eq_nil]
    intro hcon
    exact (List.ne_nil_of_mem he) hcon.1
  rw [if_neg hne]
  exact ⟨_, rfl, List.mem_append_left _ he⟩

end Mgmt

namespace MC

theorem concatMsgs_ne_empty (l : List String) (hne : l ≠ [])
    (hall : ∀ s ∈ l, s ≠ "") : concatMsgs l ≠ "" := by
  cases l with
  | nil => exact absurd rfl hne
  | cons s rest =>
    exact append_ne_empty_left _ (hall s (List.mem_cons_self _ _))

theorem concatMsgs_eq_empty (l : List String) (h : l = []) : concatMsgs l = "" := by
  rw [h]; rfl

theorem warningsErrs_foldl (conds : List Condition) (w e : String) :
    conds.foldl
      (fun acc c =>
        if c.type = ReadyCondition then acc
        else
          (if c.status = conditionUnknown then acc.1 ++ c.message ++ ". " else acc.1,
           if c.status = conditionFalse then acc.2 ++ c.message ++ ". " else acc.2))
      (w, e)
    = (w ++ concatMsgs (unknownMsgs conds), e ++ concatMsgs (falseMsgs conds)) := by
  induction conds generalizing w e with
  | nil => simp [unknownMsgs, falseMsgs, concatMsgs, String.append_empty]
  | cons c cs ih =>
    simp only [List.foldl]
    by_cases hr : c.type = ReadyCondition
    · rw [if_pos hr, ih]
      simp [unknownMsgs, falseMsgs, hr]
    · rw [if_neg hr, ih]
      have hneq : ¬ (conditionUnknown = conditionFalse) := by decide
      have hneq' : ¬ (conditionFalse = conditionUnknown) := by decide
      by_cases hu : c.status = conditionUnknown
      · have hf : ¬ c.status = conditionFalse := by
          rw [hu]; decide
        simp [unknownMsgs, falseMsgs, List.filter_cons, hr, hu, hf, concatMsgs,
          String.append_assoc, hneq, hneq']
      · by_cases hf : c.status = conditionFalse
        · simp [unknownMsgs, falseMsgs, List.filter_cons, hr, hu, hf, concatMsgs,
            String.append_assoc, hneq, hneq']
        · simp [unknownMsgs, falseMsgs, List.filter_cons, hr, hu, hf]

theorem warningsErrs_eq (conds : List Condition) :
    warningsErrs conds = (concatMsgs (unknownMsgs conds), concatMsgs (falseMsgs conds)) := by
  unfold warningsErrs
  rw [warningsErrs_foldl]
  simp [String.empty_append]

theorem falseMsgs_ne_nil (conds : List Condition)
    (h : ∃ c ∈ conds, c.type ≠ ReadyCondition ∧ c.status = conditionFalse) :
    falseMsgs conds ≠ [] := by
  obtain ⟨c, hc, h1, h2⟩ := h
  simp only [falseMsgs, ne_eq, List.map_eq_nil_iff, List.filter_eq_nil_iff]
  push_neg
  exact ⟨c, hc, by simp [h1, h2]⟩

theorem unknownMsgs_ne_nil (conds : List Condition)
    (h : ∃ c ∈ conds, c.type ≠ ReadyCondition ∧ c.status = conditionUnknown) :
    unknownMsgs conds ≠ [] := by
  obtain ⟨c, hc, h1, h2⟩ := h
  simp only [unknownMsgs, ne_eq, List.map_eq_nil_iff, List.filter_eq_nil_iff]
  push_neg
  exact ⟨c, hc, by simp [h1, h2]⟩

theorem falseMsgs_eq_nil (conds : List Condition)
    (h : ∀ c ∈ conds, c.type ≠ ReadyCondition → c.status ≠ conditionFalse) :
    falseMsgs conds = [] := by
  simp only [falseMsgs, List.map_eq_nil_iff, List.filter_eq_nil_iff]
  intro c hc
  simp only [Bool.and_eq_true, decide_eq_true_eq, not_and, decide_not, Bool.not_eq_true']
  intro h1
  simpa using h c hc (by simpa using h1)

theorem unknownMsgs_eq_nil (conds : List Condition)
    (h : ∀ c ∈ conds, c.type ≠ ReadyCondition → c.status ≠ conditionUnknown) :
    unknownMsgs conds = [] := by
  simp only [unknownMsgs, List.map_eq_nil_iff, List.filter_eq_nil_iff]
  intro c hc
  simp only [Bool.and_eq_true, decide_eq_true_eq, not_and, decide_not, Bool.not_eq_true']
  intro h1
  simpa using h c hc (by simpa using h1)

theorem falseMsgs_all_ne_empty (conds : List Condition) :
    ∀ s ∈ falseMsgs conds, s ≠ "" := by
  intro s hs
  simp only [falseMsgs, List.mem_map] at hs
  obtain ⟨c, _, rfl⟩ := hs
  exact append_ne_empty_right _ (by decide)

theorem unknownMsgs_all_ne_empty (conds : List Condition) :
    ∀ s ∈ unknownMsgs conds, s ≠ "" := by
  intro s hs
  simp only [unknownMsgs, List.mem_map] at hs
  obtain ⟨c, _, rfl⟩ := hs
  exact append_ne_empty_right _ (by decide)

theorem readyConditionFor_type (conds : List Condition) :
    (readyConditionFor conds).type = ReadyCondition := by
  unfold readyConditionFor
  simp only []
  split
  · rfl
  · split <;> rfl

theorem initConditions_spec (mc : ManagedCluster) : (initConditions mc).spec = mc.spec := by
  unfold initConditions
  simp only [setCond]
  split <;> rfl

theorem updateInit_spec (mc : ManagedCluster) : (updateInit mc).spec = mc.spec := by
  unfold updateInit
  split
  · exact initConditions_spec mc
  · rfl

theorem update_eq (env : Env) (mc : ManagedCluster)
    (hc : ManagedClusterFinalizer ∈ mc.finalizers) :
    update env mc
      = ((updateStatus env (updateBody env (updateInit mc)).1).1,
         (updateBody env (updateInit mc)).2.1,
         (updateBody env (updateInit mc)).2.2.1
           ++ (updateStatus env (updateBody env (updateInit mc)).1).2,
         (updateBody env (updateInit mc)).2.2.2 ++ [Action.statusUpdate]) := by
  unfold update
  simp [addFinalizer, hc]

theorem initConditions_dryRun_no_hrr (mc : ManagedCluster) (hdry : mc.spec.dryRun = true)
    (hty : ∀ c ∈ mc.status.conditions, c.type ≠ HelmReleaseReadyCondition) :
    ∀ c ∈ (initConditions mc).status.conditions, c.type ≠ HelmReleaseReadyCondition := by
  unfold initConditions
  simp only [setCond, hdry, if_true]
  exact setStatusCondition_no_type _ _ _ (by decide)
    (setStatusCondition_no_type _ _ _ (by decide)
      (setStatusCondition_no_type _ _ _ (by decide) hty))

theorem updateInit_no_hrr (mc : ManagedCluster) (hdry : mc.spec.dryRun = true)
    (hty : ∀ c ∈ mc.status.conditions, c.type ≠ HelmReleaseReadyCondition) :
    ∀ c ∈ (updateInit mc).status.conditions, c.type ≠ HelmReleaseReadyCondition := by
  unfold updateInit
  split
  · exact initConditions_dryRun_no_hrr mc hdry hty
  · exact hty

theorem buildServiceOpts_error (env : Env) (ns : String) (svcs : List ServiceSpec)
    (h : ∃ svc ∈ svcs, svc.install = true ∧ serviceResolutionFails env ns svc = true) :
    ∃ e, buildServiceOpts env ns svcs = .error e := by
  induction svcs with
  | nil =>
    obtain ⟨svc, hmem, _⟩ := h
    cases hmem
  | cons s rest ih =>
    obtain ⟨svc, hmem, hinst, hfail⟩ := h
    rcases List.mem_cons.mp hmem with rfl | hmem2
    · unfold serviceResolutionFails at hfail
      cases hst : env.serviceTemplates (ns, svc.template) with
      | none => exact ⟨_, by simp [buildServiceOpts, hinst, hst]; try rfl⟩
      | some tmpl =>
        simp only [hst] at hfail
        cases hurl : getServiceTemplateRepoURL env tmpl with
        | error e2 => exact ⟨_, by simp [buildServiceOpts, hinst, hst, hurl]; try rfl⟩
        | ok url =>
          simp only [hurl] at hfail
          exact absurd hfail (by simp)
    · obtain ⟨e, he⟩ := ih ⟨svc, hmem2, hinst, hfail⟩
      by_cases hsi : s.install = true
      · cases hst : env.serviceTemplates (ns, s.template) with
        | none => exact ⟨_, by simp [buildServiceOpts, hsi, hst]; try rfl⟩
        | some tmpl =>
          cases hurl : getServiceTemplateRepoURL env tmpl with
          | error e2 => exact ⟨_, by simp [buildServiceOpts, hsi, hst, hurl]; try rfl⟩
          | ok url => exact ⟨e, by simp [buildServiceOpts, hsi, hst, hurl, he]⟩
      · exact ⟨e, by simp [buildServiceOpts, hsi, he]⟩

theorem releaseClusterLoop_filter (env : DelEnv) (ns name : String) (ps : List String) :
    releaseClusterLoop env ns name ps
      = releaseClusterLoop env ns name (ps.filter (fun p => (providerGVKs p).isSome)) := by
  induction ps with
  | nil => rfl
  | cons p rest ih =>
    cases hg : providerGVKs p with
    | none =>
      rw [List.filter_cons]
      simp only [hg, Option.isSome_none, decide_False, if_neg, Bool.false_eq_true,
        not_false_eq_true]
      rw [← ih]
      simp only [releaseClusterLoop, hg]
    | some gvk =>
      rw [List.filter_cons]
      simp only [hg, Option.isSome_some, decide_True, if_pos]
      simp only [releaseClusterLoop, hg]
      rw [ih]

end MC

/-! ## Claim theorems -/

/-- C7: for every ManagedCluster status update, the aggregate Ready
condition is computed last from all other conditions and set into the
status: it is False with the concatenated False-condition messages if any
non-Ready condition is False; otherwise Unknown with the concatenated
Unknown-condition messages if any non-Ready condition is Unknown; otherwise
True. -/
theorem claim_C7_ready_aggregate (env : MC.Env) (mc : ManagedCluster) :
    ((MC.updateStatus env mc).1.status.conditions.find? (fun c => c.type = ReadyCondition)
        = some (MC.readyConditionFor mc.status.conditions))
    ∧ ((∃ c ∈ mc.status.conditions, c.type ≠ ReadyCondition ∧ c.status = conditionFalse) →
        (MC.readyConditionFor mc.status.conditions).status = conditionFalse
        ∧ (MC.readyConditionFor mc.status.conditions).message
            = MC.concatMsgs (MC.falseMsgs mc.status.conditions))
    ∧ ((∀ c ∈ mc.status.conditions, c.type ≠ ReadyCondition → c.status ≠ conditionFalse) →
        (∃ c ∈ mc.status.conditions, c.type ≠ ReadyCondition ∧ c.status = conditionUnknown) →
        (MC.readyConditionFor mc.status.conditions).status = conditionUnknown
        ∧ (MC.readyConditionFor mc.status.conditions).message
            = MC.concatMsgs (MC.unknownMsgs mc.status.conditions))
    ∧ ((∀ c ∈ mc.status.conditions, c.type ≠ ReadyCondition →
          c.status ≠ conditionFalse ∧ c.status ≠ conditionUnknown) →
        MC.readyConditionFor mc.status.conditions
          = ⟨ReadyCondition, conditionTrue, SucceededReason, "ManagedCluster is ready"⟩) := by
  refine ⟨?_, ?_, ?_, ?_⟩
  · show (MC.setCond _ _).status.conditions.find? _ = _
    simp only [MC.setCond]
    exact setStatusCondition_find_self _ _ (MC.readyConditionFor_type _)
  · intro h
    have herr : MC.concatMsgs (MC.falseMsgs mc.status.conditions) ≠ "" :=
      MC.concatMsgs_ne_empty _ (MC.falseMsgs_ne_nil _ h) (MC.falseMsgs_all_ne_empty _)
    unfold MC.readyConditionFor
    rw [MC.warningsErrs_eq]
    simp [herr]
  · intro h1 h2
    have herr : MC.concatMsgs (MC.falseMsgs mc.status.conditions) = "" :=
      MC.concatMsgs_eq_empty _ (MC.falseMsgs_eq_nil _ h1)
    have hwarn : MC.concatMsgs (MC.unknownMsgs mc.status.conditions) ≠ "" :=
      MC.concatMsgs_ne_empty _ (MC.unknownMsgs_ne_nil _ h2) (MC.unknownMsgs_all_ne_empty _)
    unfold MC.readyConditionFor
    rw [MC.warningsErrs_eq]
    simp [herr, hwarn]
  · intro h
    have herr : MC.concatMsgs (MC.falseMsgs mc.status.conditions) = "" :=
      MC.concatMsgs_eq_empty _ (MC.falseMsgs_eq_nil _ (fun c hc ht => (h c hc ht).1))
    have hwarn : MC.concatMsgs (MC.unknownMsgs mc.status.conditions) = "" :=
      MC.concatMsgs_eq_empty _ (MC.unknownMsgs_eq_nil _ (fun c hc ht => (h c hc ht).2))
    unfold MC.readyConditionFor
    rw [MC.warningsErrs_eq]
    simp [herr, hwarn]

/-- Witness for C7 at a concrete input: one non-Ready False condition makes
the aggregate False with its message. -/
theorem claim_C7_ready_aggregate_witness :
    (MC.readyConditionFor
        [⟨TemplateReadyCondition, conditionFalse, FailedReason, "boom"⟩]).status
      = conditionFalse := by
  have h := (claim_C7_ready_aggregate {}
    { name := "c", ns := "d", spec := { template := "t" },
      status := { conditions :=
        [⟨TemplateReadyCondition, conditionFalse, FailedReason, "boom"⟩] } }).2.1
  exact (h ⟨_, List.mem_singleton_self _, by decide, rfl⟩).1

/-- C9 counterexample: the claim says the first reconcile pass populates
`spec.core`, but the first pass over a fresh Management (no finalizer yet)
only adds the finalizer and returns; `spec.core` is still nil afterwards. -/
theorem claim_C9_counterexample :
    (Mgmt.managementUpdate {} none
        { name := "hmc", generation := 1, finalizers := [], spec := { core := none },
          status := {} }).1.spec.core = none
    ∧ (Mgmt.managementUpdate {} none
        { name := "hmc", generation := 1, finalizers := [], spec := { core := none },
          status := {} }).1.finalizers = [ManagementFinalizer] := by
  exact ⟨rfl, rfl⟩

/-- C9 (amended): for a Management that already carries its finalizer and
has `spec.core = nil`, one reconcile pass populates `spec.core` with the
documented defaults (HMC on template `"hmc"`, CAPI on `"cluster-api"`) and
persists it, and `SetDefaults` changes nothing when core is already set. -/
theorem claim_C9_defaults_core (env : Mgmt.Env) (cme : Option String) (mgmt : Management)
    (hfin : ManagementFinalizer ∈ mgmt.finalizers) (hcore : mgmt.spec.core = none) :
    (Mgmt.managementUpdate env cme mgmt).1.spec.core = some DefaultCoreConfiguration
    ∧ DefaultCoreConfiguration.hmc.template = "hmc"
    ∧ DefaultCoreConfiguration.capi.template = "cluster-api"
    ∧ ∀ spec : ManagementSpec, spec.core ≠ none → spec.setDefaults = (spec, false) := by
  refine ⟨?_, rfl, rfl, ?_⟩
  · have hc : mgmt.finalizers.contains ManagementFinalizer = true := by simpa using hfin
    simp only [Mgmt.managementUpdate, addFinalizer, hc, if_true, if_false,
      ManagementSpec.setDefaults, hcore]
    simp
  · intro spec h
    unfold ManagementSpec.setDefaults
    match hs : spec.core with
    | some c => rfl
    | none => exact absurd hs h

/-- Witness for C9 (amended) at a concrete input. -/
theorem claim_C9_defaults_core_witness :
    (Mgmt.managementUpdate {} none
        { name := "hmc", generation := 1, finalizers := [ManagementFinalizer],
          spec := { core := none }, status := {} }).1.spec.core
      = some DefaultCoreConfiguration :=
  (claim_C9_defaults_core {} none _ (List.mem_singleton_self _) rfl).1

/-- C1: in a Management reconcile pass, every component whose Template is
missing from the system namespace or not valid is recorded in
`status.components` with `success=false` and a non-empty error; every
component of the computed list still gets a status entry (no early abort);
the pass returns a non-nil joined error, and the error message of every
failing component is aggregated into it. -/
theorem claim_C1_component_failures (env : Mgmt.Env) (mgmt : Management)
    (c : Mgmt.WComponent) (hc : c ∈ Mgmt.wrappedComponents mgmt)
    (hfail : env.getTemplate c.component.template = none
      ∨ ∃ ts, env.getTemplate c.component.template = some ts ∧ ts.valid = false) :
    (∃ st, Mgmt.mapLookup (Mgmt.managementUpdatePass env mgmt).1.status.components
        c.component.template = some st ∧ st.success = false ∧ st.error ≠ "")
    ∧ (∀ c2 ∈ Mgmt.wrappedComponents mgmt,
        (Mgmt.mapLookup (Mgmt.managementUpdatePass env mgmt).1.status.components
          c2.component.template).isSome)
    ∧ (Mgmt.managementUpdatePass env mgmt).2 ≠ none
    ∧ (∀ c2 ∈ Mgmt.wrappedComponents mgmt,
        (Mgmt.componentOutcome env c2.component.template).success = false →
        ∃ l, (Mgmt.managementUpdatePass env mgmt).2 = some l
          ∧ (Mgmt.componentOutcome env c2.component.template).error ∈ l) := by
  have hout := Mgmt.componentOutcome_fail env c.component.template hfail
  have hbase : ∀ k v, Mgmt.mapLookup ([] : List (String × ComponentStatus)) k = some v →
      v = Mgmt.componentOutcome env k := by
    intro k v hv
    simp [Mgmt.mapLookup] at hv
  have hmem4 : ∀ c2 ∈ Mgmt.wrappedComponents mgmt,
      (Mgmt.componentOutcome env c2.component.template).success = false →
      ∃ l, (Mgmt.managementUpdatePass env mgmt).2 = some l
        ∧ (Mgmt.componentOutcome env c2.component.template).error ∈ l := by
    intro c2 hc2 hf2
    exact Mgmt.managementUpdatePass_err_mem env mgmt _
      (Mgmt.processComponents_fold_err_mem env _ c2 hc2 hf2 _)
  refine ⟨?_, ?_, ?_, hmem4⟩
  · rw [Mgmt.managementUpdatePass_components]
    have hsome := Mgmt.processComponents_fold_mem_lookup env
      (Mgmt.wrappedComponents mgmt) c hc (([], {}, []) :
        List (String × ComponentStatus) × Providers × List String)
    obtain ⟨st, hst⟩ := Option.isSome_iff_exists.mp hsome
    have hval := Mgmt.processComponents_fold_values env (Mgmt.wrappedComponents mgmt)
      (([], {}, []) : List (String × ComponentStatus) × Providers × List String)
      hbase c.component.template st hst
    exact ⟨st, hst, hval ▸ hout.1, hval ▸ hout.2⟩
  · intro c2 hc2
    rw [Mgmt.managementUpdatePass_components]
    exact Mgmt.processComponents_fold_mem_lookup env _ c2 hc2 _
  · obtain ⟨l, hl, _⟩ := hmem4 c hc hout.1
    rw [hl]
    exact Option.noConfusion

/-- Witness for C1 at a concrete input: both default core components fail
against an empty template store, are recorded as failed, and the pass
reports an error. -/
theorem claim_C1_component_failures_witness :
    (∃ st, Mgmt.mapLookup
        (Mgmt.managementUpdatePass { templates := [] }
          { spec := { core := some DefaultCoreConfiguration } }).1.status.components
        "hmc" = some st ∧ st.success = false ∧ st.error ≠ "")
    ∧ (Mgmt.managementUpdatePass { templates := [] }
        { spec := { core := some DefaultCoreConfiguration } }).2 ≠ none := by
  have h := claim_C1_component_failures { templates := [] }
    { spec := { core := some DefaultCoreConfiguration } }
    ⟨DefaultCoreConfiguration.hmc, [], "", false⟩
    (by simp [Mgmt.wrappedComponents])
    (Or.inl rfl)
  exact ⟨h.1, h.2.2.1⟩

/-- C6: on Management deletion the pass suspends the core HMC release
exactly when it exists unsuspended, issues the three delete-all operations
in the order releases, charts, repositories, and removes the Management
finalizer only after all three returned without error (the trace is always
a subsequence of the canonical order); when everything succeeds and the
finalizer was present, it is removed. -/
theorem claim_C6_delete_ordering (env : Mgmt.DeleteEnv) (mgmt : Management) :
    ((Mgmt.managementDelete env mgmt).1.Sublist
        [Mgmt.DeleteOp.suspendCore, Mgmt.DeleteOp.deleteAllReleases,
         Mgmt.DeleteOp.deleteAllCharts, Mgmt.DeleteOp.deleteAllRepos,
         Mgmt.DeleteOp.removeMgmtFinalizer])
    ∧ (Mgmt.DeleteOp.removeMgmtFinalizer ∈ (Mgmt.managementDelete env mgmt).1 →
        env.deleteReleasesError = none ∧ env.deleteChartsError = none
        ∧ env.deleteReposError = none
        ∧ Mgmt.DeleteOp.deleteAllReleases ∈ (Mgmt.managementDelete env mgmt).1
        ∧ Mgmt.DeleteOp.deleteAllCharts ∈ (Mgmt.managementDelete env mgmt).1
        ∧ Mgmt.DeleteOp.deleteAllRepos ∈ (Mgmt.managementDelete env mgmt).1)
    ∧ (Mgmt.DeleteOp.suspendCore ∈ (Mgmt.managementDelete env mgmt).1 ↔
        env.coreGetError = none ∧ env.coreRelease = some false)
    ∧ ((env.coreGetError = none ∧ env.suspendUpdateError = none
        ∧ env.deleteReleasesError = none ∧ env.deleteChartsError = none
        ∧ env.deleteReposError = none ∧ ManagementFinalizer ∈ mgmt.finalizers) →
        Mgmt.DeleteOp.removeMgmtFinalizer ∈ (Mgmt.managementDelete env mgmt).1
        ∧ ManagementFinalizer ∉ (Mgmt.managementDelete env mgmt).2.2.finalizers) := by
  obtain ⟨cr, cg, su, dr, dc, dp, fu⟩ := env
  rcases cg with _ | e1 <;> rcases cr with _ | b <;> (try cases b) <;>
    rcases su with _ | e2 <;> rcases dr with _ | e3 <;>
    rcases dc with _ | e4 <;> rcases dp with _ | e5 <;>
    by_cases hm : mgmt.finalizers.contains ManagementFinalizer <;>
    simp_all [Mgmt.managementDelete, Mgmt.removeHelmReleases, removeFinalizer,
      List.mem_filter]

/-- Witness for C6 at a concrete input: with an existing unsuspended core
release, no delete errors and the finalizer present, the full ordered trace
is produced and the finalizer removed. -/
theorem claim_C6_delete_ordering_witness :
    Mgmt.DeleteOp.removeMgmtFinalizer ∈
      (Mgmt.managementDelete { coreRelease := some false }
        { finalizers := [ManagementFinalizer] }).1
    ∧ ManagementFinalizer ∉
      (Mgmt.managementDelete { coreRelease := some false }
        { finalizers := [ManagementFinalizer] }).2.2.finalizers := by
  have h := (claim_C6_delete_ordering { coreRelease := some false }
    { finalizers := [ManagementFinalizer] }).2.2.2
  exact h ⟨rfl, rfl, rfl, rfl, rfl, List.mem_singleton_self _⟩

/-- C10 counterexample: with a template whose only infrastructure provider
is `"gcp"` (not in the static table), `releaseCluster` succeeds but its
trace is not empty — it reads the referenced ClusterTemplate to discover the
provider list, so "returns success without reading or mutating any object"
fails as stated. -/
theorem claim_C10_counterexample :
    (MC.releaseCluster
        { clusterTemplates := fun n =>
            if n = "t" then .ok { valid := true, infrastructureProviders := ["gcp"] }
            else .notFound }
        "ns" "c1" "t")
      = (.ok (), [MC.Action.getTemplate "t"])
    ∧ [MC.Action.getTemplate "t"] ≠ ([] : List MC.Action) := by
  exact ⟨rfl, by simp⟩

/-- C10 (amended): every provider name outside the static table is silently
skipped — the provider loop behaves exactly as on the table-only
sublist — and when no provider is `"aws"` or `"azure"`, `releaseCluster`
returns success having performed only the single template read that
discovers the provider list (no infra cluster lookup, no compute check, no
finalizer patch). -/
theorem claim_C10_skip_non_table (env : MC.DelEnv) (ns name tmpl : String)
    (t : MC.ClusterTemplateStatus) (htpl : env.clusterTemplates tmpl = .ok t) :
    (MC.releaseClusterLoop env ns name t.infrastructureProviders
      = MC.releaseClusterLoop env ns name
          (t.infrastructureProviders.filter (fun p => (MC.providerGVKs p).isSome)))
    ∧ ((∀ p ∈ t.infrastructureProviders, MC.providerGVKs p = none) →
        MC.releaseCluster env ns name tmpl = (.ok (), [MC.Action.getTemplate tmpl])) := by
  refine ⟨MC.releaseClusterLoop_filter env ns name _, ?_⟩
  intro hall
  have hnil : t.infrastructureProviders.filter (fun p => (MC.providerGVKs p).isSome) = [] := by
    rw [List.filter_eq_nil_iff]
    intro p hp
    simp [hall p hp]
  simp only [MC.releaseCluster, htpl]
  rw [MC.releaseClusterLoop_filter, hnil]
  rfl

/-- Witness for C10 (amended) at a concrete input. -/
theorem claim_C10_skip_non_table_witness :
    MC.releaseCluster
        { clusterTemplates := fun n =>
            if n = "gcp-tmpl" then
              .ok { valid := true, infrastructureProviders := ["gcp", "openstack"] }
            else .notFound }
        "ns" "c1" "gcp-tmpl"
      = (.ok (), [MC.Action.getTemplate "gcp-tmpl"]) := by
  have h := (claim_C10_skip_non_table
      { clusterTemplates := fun n =>
          if n = "gcp-tmpl" then
            .ok { valid := true, infrastructureProviders := ["gcp", "openstack"] }
          else .notFound }
      "ns" "c1" "gcp-tmpl"
      { valid := true, infrastructureProviders := ["gcp", "openstack"] } (by rfl)).2
  refine h ?_
  intro p hp
  simp only [List.mem_cons, List.not_mem_nil, or_false] at hp
  rcases hp with rfl | rfl <;> rfl

/-- C2: during ManagedCluster deletion, for the template-discovered table
provider whose infra cluster is found by the release-name label: with zero
compute objects the blocking finalizer is removed via a metadata-only patch
against the pre-patch copy and the pass requeues without error; with at
least one compute object no patch is issued and the pass returns the timed
requeue so the caller retries. -/
theorem claim_C2_release_gate (env : MC.DelEnv) (mc : ManagedCluster) (p : String)
    (gvk : MC.ProviderSchema) (cluster : MC.ObjMeta) (rest : List MC.ObjMeta)
    (t : MC.ClusterTemplateStatus)
    (htpl : env.clusterTemplates mc.spec.template = .ok t)
    (hfilter : t.infrastructureProviders.filter (fun q => (MC.providerGVKs q).isSome) = [p])
    (hgvk : MC.providerGVKs p = some gvk)
    (hcl : env.clusters gvk.cluster mc.ns mc.name = .ok (cluster :: rest))
    (hhr : env.helmRelease = .ok ())
    (hdp : env.deleteProfileError = none)
    (hdr : env.deleteReleaseError = none) :
    ((env.machineCount gvk.machine mc.ns cluster.name = .ok 0 ∧
        BlockingFinalizer ∈ cluster.finalizers ∧ env.patchError = none) →
      MC.Action.patchCluster cluster
          { cluster with finalizers := cluster.finalizers.filter (· ≠ BlockingFinalizer) }
        ∈ (MC.del env mc).2.2.2
      ∧ (MC.del env mc).2.2.1 = []
      ∧ (MC.del env mc).2.1 = { requeueAfterSeconds := 10 })
    ∧ (∀ n : Nat, n ≠ 0 → env.machineCount gvk.machine mc.ns cluster.name = .ok n →
      (∀ pre post : MC.ObjMeta, MC.Action.patchCluster pre post ∉ (MC.del env mc).2.2.2)
      ∧ (MC.del env mc).2.2.1 = []
      ∧ (MC.del env mc).2.1 = { requeueAfterSeconds := 10 }) := by
  constructor
  · rintro ⟨hm0, hbf, hpe⟩
    have hfin : removeFinalizer cluster.finalizers BlockingFinalizer
        = (cluster.finalizers.filter (· ≠ BlockingFinalizer), true) := by
      unfold removeFinalizer
      simp only [Prod.mk.injEq, true_and]
      simpa using hbf
    have hloop : MC.releaseClusterLoop env mc.ns mc.name t.infrastructureProviders
        = (.ok (),
           [MC.Action.listClusters gvk.cluster mc.ns mc.name,
            MC.Action.listMachines gvk.machine mc.ns cluster.name,
            MC.Action.patchCluster cluster
              { cluster with finalizers := cluster.finalizers.filter (· ≠ BlockingFinalizer) }]) := by
      rw [MC.releaseClusterLoop_filter, hfilter]
      simp only [MC.releaseClusterLoop, hgvk, hcl, MC.machinesAvailable, hm0,
        MC.removeClusterFinalizer, hfin, hpe]
      simp
    have hrel : MC.releaseCluster env mc.ns mc.name mc.spec.template
        = (.ok (),
           [MC.Action.getTemplate mc.spec.template,
            MC.Action.listClusters gvk.cluster mc.ns mc.name,
            MC.Action.listMachines gvk.machine mc.ns cluster.name,
            MC.Action.patchCluster cluster
              { cluster with finalizers := cluster.finalizers.filter (· ≠ BlockingFinalizer) }]) := by
      simp only [MC.releaseCluster, htpl, hloop]
    have hdel : MC.del env mc
        = (mc, { requeueAfterSeconds := 10 }, [],
           [MC.Action.deleteClusterProfile mc.ns mc.name,
            MC.Action.deleteHelmRelease mc.name mc.ns,
            MC.Action.getTemplate mc.spec.template,
            MC.Action.listClusters gvk.cluster mc.ns mc.name,
            MC.Action.listMachines gvk.machine mc.ns cluster.name,
            MC.Action.patchCluster cluster
              { cluster with finalizers := cluster.finalizers.filter (· ≠ BlockingFinalizer) }]) := by
      simp only [MC.del, hhr, hdp, hdr, hrel]
      rfl
    rw [hdel]
    refine ⟨by simp, rfl, rfl⟩
  · intro n hn hmn
    have hfound : (decide (n ≠ 0)) = true := by simpa using hn
    have hloop : MC.releaseClusterLoop env mc.ns mc.name t.infrastructureProviders
        = (.ok (),
           [MC.Action.listClusters gvk.cluster mc.ns mc.name,
            MC.Action.listMachines gvk.machine mc.ns cluster.name]) := by
      rw [MC.releaseClusterLoop_filter, hfilter]
      simp only [MC.releaseClusterLoop, hgvk, hcl, MC.machinesAvailable, hmn]
      simp [hn]
    have hrel : MC.releaseCluster env mc.ns mc.name mc.spec.template
        = (.ok (),
           [MC.Action.getTemplate mc.spec.template,
            MC.Action.listClusters gvk.cluster mc.ns mc.name,
            MC.Action.listMachines gvk.machine mc.ns cluster.name]) := by
      simp only [MC.releaseCluster, htpl, hloop]
    have hdel : MC.del env mc
        = (mc, { requeueAfterSeconds := 10 }, [],
           [MC.Action.deleteClusterProfile mc.ns mc.name,
            MC.Action.deleteHelmRelease mc.name mc.ns,
            MC.Action.getTemplate mc.spec.template,
            MC.Action.listClusters gvk.cluster mc.ns mc.name,
            MC.Action.listMachines gvk.machine mc.ns cluster.name]) := by
      simp only [MC.del, hhr, hdp, hdr, hrel]
      rfl
    rw [hdel]
    refine ⟨by simp, rfl, rfl⟩

/-- Witness for C2 at a concrete input (zero machines ⇒ the finalizer patch
is in the trace, no error, timed requeue; the second branch exercised with
one machine in a second environment differing only in the machine count). -/
theorem claim_C2_release_gate_witness :
    (MC.Action.patchCluster
        { name := "ic", ns := "ns", finalizers := [BlockingFinalizer] }
        { name := "ic", ns := "ns",
          finalizers := [BlockingFinalizer].filter (· ≠ BlockingFinalizer) }
      ∈ (MC.del
          { helmRelease := .ok (),
            clusterTemplates := fun n =>
              if n = "t" then .ok { valid := true, infrastructureProviders := ["aws"] }
              else .notFound,
            clusters := fun _ _ _ =>
              .ok [{ name := "ic", ns := "ns", finalizers := [BlockingFinalizer] }],
            machineCount := fun _ _ _ => .ok 0 }
          { name := "c1", ns := "ns", spec := { template := "t" } }).2.2.2)
    ∧ (∀ pre post : MC.ObjMeta, MC.Action.patchCluster pre post
        ∉ (MC.del
            { helmRelease := .ok (),
              clusterTemplates := fun n =>
                if n = "t" then .ok { valid := true, infrastructureProviders := ["aws"] }
                else .notFound,
              clusters := fun _ _ _ =>
                .ok [{ name := "ic", ns := "ns", finalizers := [BlockingFinalizer] }],
              machineCount := fun _ _ _ => .ok 1 }
            { name := "c1", ns := "ns", spec := { template := "t" } }).2.2.2) := by
  constructor
  · exact ((claim_C2_release_gate _ _ "aws" ⟨MC.gvkMachine, MC.gvkAWSCluster⟩
      { name := "ic", ns := "ns", finalizers := [BlockingFinalizer] } []
      { valid := true, infrastructureProviders := ["aws"] }
      rfl (by decide) rfl rfl rfl rfl rfl).1
      ⟨rfl, List.mem_singleton_self _, rfl⟩).1
  · exact ((claim_C2_release_gate _ _ "aws" ⟨MC.gvkMachine, MC.gvkAWSCluster⟩
      { name := "ic", ns := "ns", finalizers := [BlockingFinalizer] } []
      { valid := true, infrastructureProviders := ["aws"] }
      rfl (by decide) rfl rfl rfl rfl rfl).2 1 (by decide) rfl).1

/-- C4: in the add-on (services) pass, if any service with `install=true`
fails resolution (ServiceTemplate get or the three-hop repository-URL
lookup), the whole pass aborts with an error and the ClusterProfile is not
reconciled — no partial application. -/
theorem claim_C4_service_failure_aborts (env : MC.Env) (mc : ManagedCluster)
    (h : ∃ svc ∈ mc.spec.services, svc.install = true ∧
      MC.serviceResolutionFails env mc.ns svc = true) :
    (∃ e, (MC.updateServices env mc).2.1 = [e])
    ∧ (MC.updateServices env mc).2.1 ≠ []
    ∧ (∀ ns2 n2 opts, MC.Action.reconcileClusterProfile ns2 n2 opts
        ∉ (MC.updateServices env mc).2.2) := by
  obtain ⟨e, he⟩ := MC.buildServiceOpts_error env mc.ns mc.spec.services h
  unfold MC.updateServices
  rw [he]
  exact ⟨⟨e, rfl⟩, by simp, by simp⟩

/-- Witness for C4 at a concrete input: a single installed service whose
template cannot be resolved. -/
theorem claim_C4_service_failure_aborts_witness :
    (MC.updateServices {}
        { name := "c", ns := "ns",
          spec := { template := "t",
                    services := [{ template := "svc", install := true }] } }).2.1
      ≠ [] := by
  have h := claim_C4_service_failure_aborts {}
    { name := "c", ns := "ns",
      spec := { template := "t", services := [{ template := "svc", install := true }] } }
    ⟨{ template := "svc", install := true }, List.mem_singleton_self _, rfl, rfl⟩
  exact h.2.1

/-- C5: for a ManagedCluster whose referenced ClusterTemplate exists but is
not valid, the reconcile pass sets TemplateReady to False with the failure
message, returns an error, and never attempts a HelmRelease reconcile. -/
theorem claim_C5_invalid_template (env : MC.Env) (mc : ManagedCluster)
    (t : MC.ClusterTemplateStatus)
    (hfin : ManagedClusterFinalizer ∈ mc.finalizers)
    (ht : env.clusterTemplates mc.spec.template = .ok t)
    (hvalid : t.valid = false) :
    ((MC.update env mc).1.status.conditions.find? (fun c => c.type = TemplateReadyCondition)
        = some ⟨TemplateReadyCondition, conditionFalse, FailedReason,
            "provided template is not marked as valid"⟩)
    ∧ (MC.update env mc).2.2.1 ≠ []
    ∧ (∀ n2 ns2, MC.Action.reconcileHelmRelease n2 ns2 ∉ (MC.update env mc).2.2.2) := by
  have hspec : (MC.updateInit mc).spec.template = mc.spec.template := by
    rw [MC.updateInit_spec]
  have hbody : MC.updateBody env (MC.updateInit mc)
      = (MC.setCond (MC.updateInit mc)
          ⟨TemplateReadyCondition, conditionFalse, FailedReason,
            "provided template is not marked as valid"⟩,
         {}, ["provided template is not marked as valid"], []) := by
    unfold MC.updateBody
    rw [hspec, ht]
    simp [hvalid]
  rw [MC.update_eq env mc hfin, hbody]
  refine ⟨?_, by simp, by simp⟩
  unfold MC.updateStatus
  simp only [MC.setCond]
  rw [setStatusCondition_find_other _
    (by rw [MC.readyConditionFor_type]; decide)]
  exact setStatusCondition_find_self _ _ rfl

/-- Witness for C5 at a concrete input: a template marked invalid. -/
theorem claim_C5_invalid_template_witness :
    (MC.update
        { clusterTemplates := fun n =>
            if n = "t" then .ok { valid := false } else .notFound }
        { name := "c", ns := "ns", finalizers := [ManagedClusterFinalizer],
          spec := { template := "t" } }).1.status.conditions.find?
        (fun c => c.type = TemplateReadyCondition)
      = some ⟨TemplateReadyCondition, conditionFalse, FailedReason,
          "provided template is not marked as valid"⟩ := by
  have h := claim_C5_invalid_template
    { clusterTemplates := fun n =>
        if n = "t" then .ok { valid := false } else .notFound }
    { name := "c", ns := "ns", finalizers := [ManagedClusterFinalizer],
      spec := { template := "t" } }
    { valid := false } (List.mem_singleton_self _) rfl rfl
  exact h.1

/-- C3: for a ManagedCluster with `dryRun=true` whose template is valid,
whose chart resolves and downloads, and whose values pass the client-only
dry-run install simulation, the pass sets TemplateReady=True and
HelmChartReady=True, never carries a HelmReleaseReady condition (it was
absent before and no step of the pass sets one), and issues neither a
HelmRelease reconcile nor a ClusterProfile reconcile. -/
theorem claim_C3_dryrun (env : MC.Env) (mc : ManagedCluster)
    (t : MC.ClusterTemplateStatus) (cr : String × String)
    (hfin : ManagedClusterFinalizer ∈ mc.finalizers)
    (ht : env.clusterTemplates mc.spec.template = .ok t)
    (hvalid : t.valid = true)
    (hcr : t.chartRef = some cr)
    (hchart : (env.helmCharts cr).isSome)
    (hdl : env.downloadError = none)
    (hai : env.actionInitError = none)
    (hval : env.validateError = none)
    (hdry : mc.spec.dryRun = true)
    (hnohr : ∀ c ∈ mc.status.conditions, c.type ≠ HelmReleaseReadyCondition) :
    ((MC.update env mc).1.status.conditions.find? (fun c => c.type = TemplateReadyCondition)
        = some ⟨TemplateReadyCondition, conditionTrue, SucceededReason, "Template is valid"⟩)
    ∧ ((MC.update env mc).1.status.conditions.find? (fun c => c.type = HelmChartReadyCondition)
        = some ⟨HelmChartReadyCondition, conditionTrue, SucceededReason, "Helm chart is valid"⟩)
    ∧ (∀ c ∈ (MC.update env mc).1.status.conditions, c.type ≠ HelmReleaseReadyCondition)
    ∧ (∀ n2 ns2, MC.Action.reconcileHelmRelease n2 ns2 ∉ (MC.update env mc).2.2.2)
    ∧ (∀ ns2 n2 opts, MC.Action.reconcileClusterProfile ns2 n2 opts
        ∉ (MC.update env mc).2.2.2) := by
  have hspec : (MC.updateInit mc).spec.template = mc.spec.template := by
    rw [MC.updateInit_spec]
  have hdry2 : (MC.updateInit mc).spec.dryRun = true := by
    rw [MC.updateInit_spec]
    exact hdry
  obtain ⟨hc0, hchart0⟩ := Option.isSome_iff_exists.mp hchart
  have hbody : MC.updateBody env (MC.updateInit mc)
      = (MC.setCond (MC.setCond (MC.updateInit mc)
            ⟨TemplateReadyCondition, conditionTrue, SucceededReason, "Template is valid"⟩)
          ⟨HelmChartReadyCondition, conditionTrue, SucceededReason, "Helm chart is valid"⟩,
         {}, [], []) := by
    unfold MC.updateBody
    rw [hspec, ht]
    simp [hvalid, hcr, hchart0, hdl, hai, hval, MC.setCond, hdry2]
  rw [MC.update_eq env mc hfin, hbody]
  have hready : ∀ L : List Condition,
      (MC.readyConditionFor L).type ≠ TemplateReadyCondition := by
    intro L
    rw [MC.readyConditionFor_type]
    decide
  have hready2 : ∀ L : List Condition,
      (MC.readyConditionFor L).type ≠ HelmChartReadyCondition := by
    intro L
    rw [MC.readyConditionFor_type]
    decide
  have hready3 : ∀ L : List Condition,
      (MC.readyConditionFor L).type ≠ HelmReleaseReadyCondition := by
    intro L
    rw [MC.readyConditionFor_type]
    decide
  refine ⟨?_, ?_, ?_, by simp, by simp⟩
  · unfold MC.updateStatus
    simp only [MC.setCond]
    rw [setStatusCondition_find_other _ (hready _)]
    rw [setStatusCondition_find_other _ (by decide)]
    exact setStatusCondition_find_self _ _ rfl
  · unfold MC.updateStatus
    simp only [MC.setCond]
    rw [setStatusCondition_find_other _ (hready2 _)]
    exact setStatusCondition_find_self _ _ rfl
  · unfold MC.updateStatus
    simp only [MC.setCond]
    exact setStatusCondition_no_type _ _ _ (hready3 _)
      (setStatusCondition_no_type _ _ _ (by decide)
        (setStatusCondition_no_type _ _ _ (by decide)
          (MC.updateInit_no_hrr mc hdry hnohr)))

/-- Witness for C3 at a concrete input: valid template, resolvable chart,
all collaborator oracles succeeding, dry run enabled. -/
theorem claim_C3_dryrun_witness :
    ((MC.update
        { clusterTemplates := fun n =>
            if n = "t" then
              .ok { valid := true, chartRef := some ("hmc-system", "chart") }
            else .notFound,
          helmCharts := fun k =>
            if k = ("hmc-system", "chart") then
              some { name := "chart", ns := "hmc-system", sourceRefName := "repo" }
            else none }
        { name := "c", ns := "ns", finalizers := [ManagedClusterFinalizer],
          spec := { template := "t", dryRun := true } }).1.status.conditions.find?
        (fun c => c.type = TemplateReadyCondition)
      = some ⟨TemplateReadyCondition, conditionTrue, SucceededReason, "Template is valid"⟩) := by
  have h := claim_C3_dryrun
    { clusterTemplates := fun n =>
        if n = "t" then
          .ok { valid := true, chartRef := some ("hmc-system", "chart") }
        else .notFound,
      helmCharts := fun k =>
        if k = ("hmc-system", "chart") then
          some { name := "chart", ns := "hmc-system", sourceRefName := "repo" }
        else none }
    { name := "c", ns := "ns", finalizers := [ManagedClusterFinalizer],
      spec := { template := "t", dryRun := true } }
    { valid := true, chartRef := some ("hmc-system", "chart") }
    ("hmc-system", "chart")
    (List.mem_singleton_self _) rfl rfl rfl (by rfl) rfl rfl rfl rfl
    (by intro c hcmem; simp at hcmem)
  exact h.1

/-- C8: a Template whose spec declares no type and whose chart annotation
type is not one of the three recognized kinds is rejected with the fixed
"template type is not supported" error naming the three kinds, and its
status is persisted with `valid=false` and that error as the validation
error. -/
theorem claim_C8_unsupported_type (t : Tmpl.Template) (c : Tmpl.Chart)
    (md : Tmpl.ChartMetadata) (cve : Option String)
    (hmeta : c.metadata = some md)
    (hspec : t.spec.type = "")
    (hd : Tmpl.annotationValue md Tmpl.ChartAnnotationType ≠ Tmpl.TemplateTypeDeployment)
    (hp : Tmpl.annotationValue md Tmpl.ChartAnnotationType ≠ Tmpl.TemplateTypeProvider)
    (hc : Tmpl.annotationValue md Tmpl.ChartAnnotationType ≠ Tmpl.TemplateTypeCore) :
    Tmpl.parseChartMetadata t c = .error Tmpl.errNoProviderType
    ∧ (Tmpl.reconcileValidationStep t c cve).1.status.valid = false
    ∧ (Tmpl.reconcileValidationStep t c cve).1.status.validationError = Tmpl.errNoProviderType
    ∧ (Tmpl.reconcileValidationStep t c cve).2 = some Tmpl.errNoProviderType
    ∧ Tmpl.errNoProviderType =
        "template type is not supported: hmc.mirantis.com/type chart annotation must be one of [deployment/provider/core]" := by
  have hparse : Tmpl.parseChartMetadata t c = .error Tmpl.errNoProviderType := by
    unfold Tmpl.parseChartMetadata
    rw [hmeta]
    simp [hspec, hd, hp, hc]
  refine ⟨hparse, ?_, ?_, ?_, by rfl⟩
  · unfold Tmpl.reconcileValidationStep
    rw [hparse]
    simp only [Tmpl.templateUpdateStatus]
    simp only [decide_eq_false_iff_not]
    decide
  · unfold Tmpl.reconcileValidationStep
    rw [hparse]
    simp [Tmpl.templateUpdateStatus]
  · unfold Tmpl.reconcileValidationStep
    rw [hparse]

/-- Witness for C8 at a concrete input: an annotation type `"unknown"`. -/
theorem claim_C8_unsupported_type_witness :
    (Tmpl.reconcileValidationStep
        { name := "t", ns := "hmc-system", spec := { type := "" } }
        { metadata := some { annotations := [("hmc.mirantis.com/type", "unknown")] } }
        none).1.status.valid = false := by
  have h := claim_C8_unsupported_type
    { name := "t", ns := "hmc-system", spec := { type := "" } }
    { metadata := some { annotations := [("hmc.mirantis.com/type", "unknown")] } }
    { annotations := [("hmc.mirantis.com/type", "unknown")] }
    none rfl rfl (by decide) (by decide) (by decide)
  exact h.2.1

end Hmc
